import Mathlib

/-!
# Migration engine of `internal/psql/psql.go`

A shallow embedding of the migration loader (`loadMigrations`), the applied-set
tracker (`getAppliedMigrations`), the runner (`RunMigrations`) and the status
report (`GetMigrationStatus`), followed by the properties proved about them.

Go strings are Lean `String`s, processed through their character lists.  Go
`int` is `Int` with the 64-bit range enforced where the code can observe it
(`strconv.Atoi`).  The file system and the database are the two external
collaborators: a directory is the list of entries `os.ReadDir` returns, each
carrying what `os.ReadFile` gives for it, and the database is reached through
a `Driver` record with one field per statement the code issues.
-/

namespace Psql

/-! ## Library functions used by the loader -/

/-- The text of an error coming from the operating system or the database. -/
abbrev Cause := String

deriving instance DecidableEq for Except

/-- An error built by `fmt.Errorf("... %w", err)`: the rendered message and
the wrapped error that `errors.Unwrap` gives back. -/
structure Error where
  msg : String
  cause : Cause
deriving DecidableEq, Repr

/-- The function `strings.HasSuffix(s, suffix)`:
`len(s) >= len(suffix) && s[len(s)-len(suffix):] == suffix`. -/
def hasSuffix (s suffix : List Char) : Bool :=
  decide (suffix.length ≤ s.length) && (s.drop (s.length - suffix.length) == suffix)

/-- The function `strings.TrimSuffix(s, suffix)`: `s[:len(s)-len(suffix)]` when
`s` has the suffix, `s` otherwise. -/
def trimSuffix (s suffix : List Char) : List Char :=
  if hasSuffix s suffix then s.take (s.length - suffix.length) else s

/-- The part of `s` before the first `sep`, and the part after it; `none` when
`sep` does not occur (`strings.Index(s, sep) < 0`). -/
def cutFirst (sep : Char) : List Char → Option (List Char × List Char)
  | [] => none
  | c :: cs =>
    if c = sep then some ([], cs)
    else match cutFirst sep cs with
      | some (a, b) => some (c :: a, b)
      | none => none

/-- The call `strings.SplitN(s, sep, 2)` for a one-character separator: `[s]`
when the separator does not occur, otherwise the text before its first
occurrence and the unsplit remainder. -/
def splitN2 (s : List Char) (sep : Char) : List (List Char) :=
  match cutFirst sep s with
  | some (a, b) => [a, b]
  | none => [s]

/-- The value of a decimal digit, `none` for any other character
(`ch -= '0'; if ch > 9`). -/
def digitVal (c : Char) : Option Nat :=
  if '0'.toNat ≤ c.toNat ∧ c.toNat ≤ '9'.toNat then some (c.toNat - '0'.toNat) else none

/-- The loop `n = n*10 + int(ch)` over the digits, failing on a non-digit. -/
def parseDigits : List Char → Nat → Option Nat
  | [], n => some n
  | c :: cs, n =>
    match digitVal c with
    | some d => parseDigits cs (n * 10 + d)
    | none => none

/-- The text after an optional leading sign, and whether the sign was `-`. -/
def stripSign : List Char → Bool × List Char
  | '-' :: cs => (true, cs)
  | '+' :: cs => (false, cs)
  | cs => (false, cs)

/-- The function `strconv.Atoi(s)` on a 64-bit platform: it accepts an optional
sign followed by at least one decimal digit and nothing else; a value outside
`[-2^63, 2^63 - 1]` is a range error.  `none` stands for the returned error. -/
def Atoi (s : List Char) : Option Int :=
  match stripSign s with
  | (_, []) => none
  | (neg, ds) =>
    match parseDigits ds 0 with
    | none => none
    | some n =>
      if neg then (if n ≤ 2 ^ 63 then some (-(n : Int)) else none)
      else (if n < 2 ^ 63 then some (n : Int) else none)

/-- The digits of `n` in base ten, least significant first, with `fuel`
bounding the number of digits. -/
def digitsRev : Nat → Nat → List Char
  | 0, _ => []
  | fuel + 1, n =>
    Char.ofNat ('0'.toNat + n % 10) :: (if n / 10 = 0 then [] else digitsRev fuel (n / 10))

/-- The verb `%d` applied to a Go `int`. -/
def itoa (v : Int) : String :=
  let n := v.natAbs
  let ds := String.mk (digitsRev (n + 1) n).reverse
  if v < 0 then "-" ++ ds else ds

/-! ## Data model -/

/-- The record `Migration` of the source. -/
structure Migration where
  Version : Int
  Name : String
  Content : String
deriving DecidableEq, Repr

/-- One entry of the listing `os.ReadDir` returns, together with the result
`os.ReadFile` gives for the entry's path. -/
structure DirEntry where
  name : String
  isDir : Bool
  body : Except Cause String

/-- What a call of `loadMigrations` produces: the lines it logs, the names of
the files it reads, and the returned pair (`none` for the slice is never
observed: an error carries no slice). -/
structure LoadResult where
  log : List String
  reads : List String
  result : Except Error (List Migration)

/-! ## `sort.Slice` -/

/-- The inner loop of the library's insertion sort, on the already sorted
prefix read from right to left: `x` moves left while `less(x, previous)`. -/
def insertLeft {α : Type} (less : α → α → Bool) (x : α) : List α → List α
  | [] => [x]
  | e :: r => if less x e then e :: insertLeft less x r else x :: e :: r

/-- The function `sort.Slice(data, less)`.  The library promises a sorted
permutation and no stability; it runs insertion sort on slices of at most
twelve elements, which is the algorithm embedded here (the processed prefix is
kept reversed).  On longer slices the library switches to pattern-defeating
quicksort, so there the order among records of equal version may differ from
the one computed here; the properties below use only that the result is a
sorted permutation, and the evaluated scenarios have at most twelve
records. -/
def sortSlice {α : Type} (less : α → α → Bool) (data : List α) : List α :=
  (data.foldl (fun acc x => insertLeft less x acc) []).reverse

/-! ## The loader -/

/-- The body of the `for _, file := range files` loop of `loadMigrations`,
with the slice `migrations` built so far as accumulator. -/
def loadLoop : List DirEntry → List Migration → LoadResult
  | [], migrations => { log := [], reads := [], result := .ok migrations }
  | file :: files, migrations =>
    if file.isDir || !hasSuffix file.name.data ".sql".data then
      loadLoop files migrations
    else
      match splitN2 file.name.data '_' with
      | [p0, _] =>
        match Atoi p0 with
        | none =>
          let r := loadLoop files migrations
          { r with log := ("Skipping file with invalid version number: " ++ file.name) :: r.log }
        | some version =>
          match file.body with
          | .error err =>
            { log := [], reads := [file.name],
              result := .error
                { msg := "failed to read migration file " ++ file.name ++ ": " ++ err,
                  cause := err } }
          | .ok content =>
            let name := String.mk (trimSuffix file.name.data ".sql".data)
            let r := loadLoop files
              (migrations ++ [{ Version := version, Name := name, Content := content }])
            { r with reads := file.name :: r.reads }
      | _ =>
        let r := loadLoop files migrations
        { r with log := ("Skipping file with invalid name format: " ++ file.name) :: r.log }

/-- The function `loadMigrations`, applied to the result of
`os.ReadDir(migrationsDir)`. -/
def loadMigrations (dir : Except Cause (List DirEntry)) : LoadResult :=
  match dir with
  | .error err =>
    { log := [], reads := [],
      result := .error { msg := "failed to read migrations directory: " ++ err, cause := err } }
  | .ok files =>
    let r := loadLoop files []
    match r.result with
    | .error e => { r with result := .error e }
    | .ok migrations =>
      { r with result := .ok (sortSlice (fun a b => decide (a.Version < b.Version)) migrations) }

/-! ## The database handle -/

/-- The handle `d.DB` as the code uses it, over a database state `σ`: one
field per statement issued.  Every operation returns the error it reports
(`none` for success) and the state it leaves.

* `createTable`: `Exec` of `CREATE TABLE IF NOT EXISTS schema_migrations ...`;
* `selectVersions`: `Query` of `SELECT version FROM schema_migrations ORDER BY
  version`, giving for each row what `rows.Scan(&version)` returns;
* `begin`: `d.DB.Begin()`;
* `txExec`: `tx.Exec(migration.Content)`;
* `txInsert`: `tx.Exec` of `INSERT INTO schema_migrations (version, name)
  VALUES ($1, $2)`;
* `commit`: `tx.Commit()`;
* `rollback`: `tx.Rollback()`, whose result the code discards. -/
structure Driver (σ : Type) where
  createTable : σ → Option Cause × σ
  selectVersions : σ → Except Cause (List (Except Cause Int)) × σ
  begin : σ → Option Cause × σ
  txExec : String → σ → Option Cause × σ
  txInsert : Int → String → σ → Option Cause × σ
  commit : σ → Option Cause × σ
  rollback : σ → σ

/-- A call made on the database handle, with whether it succeeded. -/
inductive Call where
  | createTable (ok : Bool)
  | selectVersions (ok : Bool)
  | begin (ok : Bool)
  | txExec (content : String) (ok : Bool)
  | txInsert (version : Int) (name : String) (ok : Bool)
  | commit (ok : Bool)
  | rollback
deriving DecidableEq, Repr

/-- What a run leaves behind: the returned error (`none` for `nil`), the lines
logged, the calls made on the database handle in order, the files read, and
the database state. -/
structure Outcome (σ : Type) where
  err : Option Error
  log : List String
  calls : List Call
  reads : List String
  db : σ

/-! ## The tracker -/

/-- The loop `for rows.Next()` of `getAppliedMigrations`: the keys set to
`true` in the map `applied`, or the error of the first failing `Scan`. -/
def scanRows : List (Except Cause Int) → List Int → Except Error (List Int)
  | [], applied => .ok applied
  | .error err :: _, _ =>
    .error { msg := "failed to scan migration version: " ++ err, cause := err }
  | .ok version :: rows, applied => scanRows rows (version :: applied)

/-- The function `getAppliedMigrations`; the map `applied` is the list of its
keys, and `applied[v]` is membership. -/
def getAppliedMigrations {σ : Type} (drv : Driver σ) (db : σ) :
    Except Error (List Int) × σ :=
  match drv.selectVersions db with
  | (.error err, db1) =>
    (.error { msg := "failed to get applied migrations: " ++ err, cause := err }, db1)
  | (.ok rows, db1) => (scanRows rows [], db1)

/-- The call `d.DB.Query(...)` made by `getAppliedMigrations`, as it appears in
the list of calls: it succeeded when the query itself returned rows, whatever
the later `Scan`s do. -/
def queryCall {σ : Type} (drv : Driver σ) (db : σ) : Call :=
  match (drv.selectVersions db).1 with
  | .ok _ => .selectVersions true
  | .error _ => .selectVersions false

/-- The function `createMigrationsTable`. -/
def createMigrationsTable {σ : Type} (drv : Driver σ) (db : σ) : Option Error × σ :=
  match drv.createTable db with
  | (some err, db1) =>
    (some { msg := "failed to create migrations table: " ++ err, cause := err }, db1)
  | (none, db1) => (none, db1)

/-! ## The runner -/

/-- The loop `for _, migration := range migrations` of `RunMigrations`. -/
def applyLoop {σ : Type} (drv : Driver σ) (applied : List Int) :
    List Migration → σ → Outcome σ
  | [], db => { err := none, log := [], calls := [], reads := [], db := db }
  | migration :: migrations, db =>
    if migration.Version ∈ applied then
      let r := applyLoop drv applied migrations db
      { r with log := ("Migration " ++ itoa migration.Version ++ " (" ++ migration.Name
                  ++ ") already applied, skipping") :: r.log }
    else
      let applying :=
        "Applying migration " ++ itoa migration.Version ++ ": " ++ migration.Name
      match drv.begin db with
      | (some err, db1) =>
        { err := some
            { msg := "failed to begin transaction for migration " ++ itoa migration.Version
                ++ ": " ++ err,
              cause := err },
          log := [applying], calls := [.begin false], reads := [], db := db1 }
      | (none, db1) =>
        match drv.txExec migration.Content db1 with
        | (some err, db2) =>
          { err := some
              { msg := "failed to execute migration " ++ itoa migration.Version ++ " ("
                  ++ migration.Name ++ "): " ++ err,
                cause := err },
            log := [applying],
            calls := [.begin true, .txExec migration.Content false, .rollback],
            reads := [], db := drv.rollback db2 }
        | (none, db2) =>
          match drv.txInsert migration.Version migration.Name db2 with
          | (some err, db3) =>
            { err := some
                { msg := "failed to record migration " ++ itoa migration.Version ++ ": " ++ err,
                  cause := err },
              log := [applying],
              calls := [.begin true, .txExec migration.Content true,
                .txInsert migration.Version migration.Name false, .rollback],
              reads := [], db := drv.rollback db3 }
          | (none, db3) =>
            match drv.commit db3 with
            | (some err, db4) =>
              { err := some
                  { msg := "failed to commit migration " ++ itoa migration.Version ++ ": "
                      ++ err,
                    cause := err },
                log := [applying],
                calls := [.begin true, .txExec migration.Content true,
                  .txInsert migration.Version migration.Name true, .commit false],
                reads := [], db := db4 }
            | (none, db4) =>
              let r := applyLoop drv applied migrations db4
              { r with
                log := applying :: ("Successfully applied migration "
                  ++ itoa migration.Version ++ ": " ++ migration.Name) :: r.log,
                calls := [.begin true, .txExec migration.Content true,
                  .txInsert migration.Version migration.Name true, .commit true] ++ r.calls }

/-- The function `RunMigrations`, applied to the result of
`os.ReadDir(migrationsDir)` and the database state. -/
def RunMigrations {σ : Type} (drv : Driver σ) (dir : Except Cause (List DirEntry))
    (db : σ) : Outcome σ :=
  match createMigrationsTable drv db with
  | (some e, db1) =>
    { err := some e, log := [], calls := [.createTable false], reads := [], db := db1 }
  | (none, db1) =>
    let l := loadMigrations dir
    match l.result with
    | .error e =>
      { err := some e, log := l.log, calls := [.createTable true], reads := l.reads, db := db1 }
    | .ok migrations =>
      if migrations.length = 0 then
        { err := none, log := l.log ++ ["No migration files found"],
          calls := [.createTable true], reads := l.reads, db := db1 }
      else
        match getAppliedMigrations drv db1 with
        | (.error e, db2) =>
          { err := some e, log := l.log,
            calls := [.createTable true, queryCall drv db1], reads := l.reads, db := db2 }
        | (.ok applied, db2) =>
          let r := applyLoop drv applied migrations db2
          { err := r.err,
            log := l.log ++ r.log ++
              (if r.err.isNone then ["All migrations completed successfully"] else []),
            calls := [.createTable true, .selectVersions true] ++ r.calls,
            reads := l.reads, db := r.db }

/-- The loop of `GetMigrationStatus` printing one line per migration. -/
def statusLoop (applied : List Int) : List Migration → List String
  | [] => []
  | migration :: migrations =>
    let status := "PENDING"
    let status := if migration.Version ∈ applied then "APPLIED" else status
    ("Version " ++ itoa migration.Version ++ ": " ++ migration.Name ++ " [" ++ status ++ "]")
      :: statusLoop applied migrations

/-- The function `GetMigrationStatus`. -/
def GetMigrationStatus {σ : Type} (drv : Driver σ) (dir : Except Cause (List DirEntry))
    (db : σ) : Outcome σ :=
  let l := loadMigrations dir
  match l.result with
  | .error e => { err := some e, log := l.log, calls := [], reads := l.reads, db := db }
  | .ok migrations =>
    match getAppliedMigrations drv db with
    | (.error e, db1) =>
      { err := some e, log := l.log, calls := [queryCall drv db], reads := l.reads,
        db := db1 }
    | (.ok applied, db1) =>
      { err := none,
        log := l.log ++ ["Migration Status:", "================"]
          ++ statusLoop applied migrations,
        calls := [.selectVersions true], reads := l.reads, db := db1 }

/-! ## A reference database -/

/-- The table `schema_migrations`: whether its primary key on `version` is in
force, and its rows `(version, name)` (`applied_at` is never read). -/
structure Table where
  pk : Bool
  rows : List (Int × String)
deriving DecidableEq, Repr

/-- A database state over user data `U`: the committed bookkeeping table (if
it exists), the committed user data, and the working copy of the open
transaction (if any). -/
structure Pg (U : Type) where
  table : Option Table
  user : U
  tx : Option (Option Table × U)

/-- The part of the database behaviour the code cannot see.

* `run`: what a migration's SQL does to the working copy of its transaction
  (or the error it raises).  The SQL of a migration is arbitrary: it may
  change the user data and also `schema_migrations` itself, its rows as well
  as its primary key.
* `deferredOK`: whether the constraints deferred to commit time hold.
* `rowOK`: whether the column types of `schema_migrations` accept a row.
* `scan`: what iterating over the rows of the version query delivers, given
  the versions stored.  `getAppliedMigrations` does not look at `rows.Err()`,
  so an iteration cut short is seen as fewer rows, and a `Scan` may fail. -/
structure PgSem (U : Type) where
  run : String → Option Table × U → Except Cause (Option Table × U)
  deferredOK : U → Bool
  rowOK : Int → String → Bool
  scan : List Int → List (Except Cause Int)

/-- The SQL text `content` leaves `schema_migrations` as it finds it, whatever
the state it runs in. -/
def PgSem.keeps {U : Type} (S : PgSem U) (content : String) : Prop :=
  ∀ t u t1 u1, S.run content (t, u) = .ok (t1, u1) → t1 = t

/-- The version query delivers every stored version, each with a successful
`Scan`. -/
def PgSem.fullScan {U : Type} (S : PgSem U) : Prop :=
  ∀ l, S.scan l = l.map .ok

/-- The versions stored in a table. -/
def Table.versions (t : Table) : List Int := t.rows.map Prod.fst

/-- The reference database as a `Driver`: statements inside a transaction act
on its working copy, `commit` installs the copy, `rollback` discards it, and
an insert of a version already present fails when the primary key is in
force. -/
def pgDriver {U : Type} (S : PgSem U) : Driver (Pg U) where
  createTable db :=
    match db.table with
    | none => (none, { db with table := some { pk := true, rows := [] } })
    | some _ => (none, db)
  selectVersions db :=
    match db.table with
    | none => (.error "pq: relation schema_migrations does not exist", db)
    | some t => (.ok (S.scan (sortSlice (fun a b => decide (a < b)) t.versions)), db)
  begin db := (none, { db with tx := some (db.table, db.user) })
  txExec content db :=
    match db.tx with
    | none => (some "sql: transaction has already been committed or rolled back", db)
    | some w =>
      match S.run content w with
      | .error err => (some err, db)
      | .ok w1 => (none, { db with tx := some w1 })
  txInsert version name db :=
    match db.tx with
    | none => (some "sql: transaction has already been committed or rolled back", db)
    | some (none, _) => (some "pq: relation schema_migrations does not exist", db)
    | some (some t, u) =>
      if t.pk && decide (version ∈ t.versions) then
        (some "pq: duplicate key in schema_migrations", db)
      else if !S.rowOK version name then
        (some "pq: value not accepted by the column type", db)
      else
        (none, { db with tx := some (some { t with rows := t.rows ++ [(version, name)] }, u) })
  commit db :=
    match db.tx with
    | none => (some "sql: transaction has already been committed or rolled back", db)
    | some (t, u) =>
      if S.deferredOK u then (none, { table := t, user := u, tx := none })
      else (some "pq: deferred constraint violated", { db with tx := none })
  rollback db := { db with tx := none }

/-- A small database semantics for the scenarios.  The user data is the list
of statements executed so far.  A statement starting with `BAD` is a syntax
error; `DELETE FROM schema_migrations` empties the bookkeeping table; a
statement starting with `CREATE` fails when it was executed before; a
statement starting with `DEFER` violates a constraint checked at commit; every
other statement succeeds.  The version query delivers every row. -/
def demoSem : PgSem (List String) where
  run content w :=
    if "BAD".data.isPrefixOf content.data then .error "pq: syntax error"
    else if content = "DELETE FROM schema_migrations" then
      match w.1 with
      | none => .error "pq: relation schema_migrations does not exist"
      | some t => .ok (some { t with rows := [] }, w.2 ++ [content])
    else if "CREATE".data.isPrefixOf content.data && decide (content ∈ w.2) then
      .error "pq: relation already exists"
    else .ok (w.1, w.2 ++ [content])
  deferredOK u := u.all (fun s => !"DEFER".data.isPrefixOf s.data)
  rowOK _ _ := true
  scan l := l.map .ok

/-- The semantics `demoSem` with a version query whose iteration stops after
the first row. -/
def lossySem : PgSem (List String) :=
  { demoSem with scan := fun l => (l.take 1).map .ok }

/-- An empty database: no bookkeeping table, no user data, no transaction. -/
def emptyPg : Pg (List String) := { table := none, user := [], tx := none }

/-! ## Observations on a run -/

/-- The transaction discipline on a list of calls, `inTx` telling whether a
transaction is open: a transaction is begun only when none is open, statements
of a transaction, `Commit` and `Rollback` are issued only on an open
transaction and `Commit` and `Rollback` close it, a failed `Begin` opens
nothing, and no transaction is open at the end. -/
def txDiscipline : Bool → List Call → Bool
  | inTx, [] => !inTx
  | inTx, .begin true :: cs => !inTx && txDiscipline true cs
  | inTx, .begin false :: cs => !inTx && txDiscipline false cs
  | inTx, .txExec _ _ :: cs => inTx && txDiscipline true cs
  | inTx, .txInsert _ _ _ :: cs => inTx && txDiscipline true cs
  | inTx, .commit _ :: cs => inTx && txDiscipline false cs
  | inTx, .rollback :: cs => inTx && txDiscipline false cs
  | inTx, .createTable _ :: cs => txDiscipline inTx cs
  | inTx, .selectVersions _ :: cs => txDiscipline inTx cs

/-- The versions whose bookkeeping insert was followed by a successful
`Commit`, in the order of the commits. -/
def committedVersions : List Call → List Int
  | [] => []
  | [_] => []
  | c :: d :: cs =>
    match c, d with
    | .txInsert v _ true, .commit true => v :: committedVersions (d :: cs)
    | _, _ => committedVersions (d :: cs)

/-- The call opens a transaction, runs a statement in one, or writes: all that
a read-only run must not do. -/
def Call.isWrite : Call → Bool
  | .selectVersions _ => false
  | _ => true

/-- The error message contains the text `t`. -/
def Error.carries (e : Error) (t : String) : Prop := t.data <:+: e.msg.data

/-! ## The loader as the specification words it -/

/-- The text before the first `_` of a name. -/
def versionPrefix (name : List Char) : List Char := name.takeWhile (fun c => c != '_')

/-- An optional sign followed by at least one decimal digit and nothing else. -/
def signedDecimal (s : List Char) : Bool :=
  let ds := match s with
    | '-' :: r => r
    | '+' :: r => r
    | r => r
  !ds.isEmpty && ds.all Char.isDigit

/-- The entry is passed over by the loader: a sub-directory, a name not ending
in `.sql`, a name without `_`, or a prefix that is not an integer. -/
def rejected (e : DirEntry) : Prop :=
  e.isDir = true ∨ ¬ (".sql".data <:+ e.name.data) ∨ '_' ∉ e.name.data ∨
    Atoi (versionPrefix e.name.data) = none

/-- The record the specification builds from a directory entry: for a regular
file named `<integer>_<rest>.sql`, the integer as version, the file name
without its extension as name, and the file's text as content. -/
def acceptedRecord (e : DirEntry) : Option Migration :=
  if e.isDir = false ∧ ".sql".data <:+ e.name.data ∧ '_' ∈ e.name.data then
    match Atoi (versionPrefix e.name.data), e.body with
    | some v, .ok content =>
      some { Version := v, Name := String.mk (e.name.data.dropLast.dropLast.dropLast.dropLast),
             Content := content }
    | _, _ => none
  else none

/-- The report line of one migration. -/
def statusLine (m : Migration) (status : String) : String :=
  "Version " ++ itoa m.Version ++ ": " ++ m.Name ++ " [" ++ status ++ "]"

/-! ## The loop body of the loader as a function of one entry -/

/-- What the loader does with one entry: pass over it, stop on a read error,
or append a record. -/
inductive EntryFate where
  | skip
  | fail (err : Cause)
  | accept (m : Migration)

/-- The fate of an entry, read off the branches of the loop body. -/
def entryFate (e : DirEntry) : EntryFate :=
  if e.isDir = true ∨ hasSuffix e.name.data ".sql".data = false then .skip
  else match cutFirst '_' e.name.data with
    | none => .skip
    | some (p0, _) =>
      match Atoi p0 with
      | none => .skip
      | some v =>
        match e.body with
        | .error err => .fail err
        | .ok content =>
          .accept { Version := v, Name := String.mk (trimSuffix e.name.data ".sql".data),
                    Content := content }

/-! ## Scenario inputs -/

/-- Scenario D: a text file, a file with a non-numeric prefix, and one
migration. -/
def scenarioD : List DirEntry :=
  [⟨"notes.txt", false, .ok "remember"⟩, ⟨"abc_bad.sql", false, .ok "SELECT 1"⟩,
   ⟨"001_init.sql", false, .ok "CREATE TABLE t(id int)"⟩]

/-- A listing enumerated out of version order, with two files sharing version
ten and zero-padded prefixes. -/
def unorderedDir : List DirEntry :=
  [⟨"10_b.sql", false, .ok "B"⟩, ⟨"9_a.sql", false, .ok "A"⟩,
   ⟨"010_c.sql", false, .ok "C"⟩, ⟨"sub_1.sql", true, .ok ""⟩, ⟨"2_d.sql", false, .ok "D"⟩]

/-- A directory holding one file with a negative prefix and one whose prefix
is not a number. -/
def negativeDir : List DirEntry :=
  [⟨"-5_drop.sql", false, .ok "DROP TABLE t"⟩, ⟨"5x_bad.sql", false, .ok "SELECT 1"⟩]

/-- Scenario E: two migrations, the first recorded as applied. -/
def scenarioE : List DirEntry :=
  [⟨"002_seed.sql", false, .ok "INSERT INTO t VALUES (1)"⟩,
   ⟨"001_init.sql", false, .ok "CREATE TABLE t(id int)"⟩]

/-- The database of scenario E: version 1 is in `schema_migrations`. -/
def scenarioEdb : Pg (List String) :=
  { table := some { pk := true, rows := [(1, "001_init")] },
    user := ["CREATE TABLE t(id int)"], tx := none }

/-- Scenario A: two migrations against an empty database. -/
def scenarioA : List DirEntry :=
  [⟨"001_init.sql", false, .ok "CREATE TABLE t(id int)"⟩,
   ⟨"002_seed.sql", false, .ok "INSERT INTO t VALUES (1)"⟩]

/-- Scenario C: a good migration followed by one whose SQL fails. -/
def scenarioC : List DirEntry :=
  [⟨"001_init.sql", false, .ok "CREATE TABLE t(id int)"⟩,
   ⟨"002_bad.sql", false, .ok "BAD SQL"⟩, ⟨"003_later.sql", false, .ok "SELECT 3"⟩]

/-- A listing, enumerated out of order, in which two files share version 2. -/
def sharedVersionDir : List DirEntry :=
  [⟨"003_c.sql", false, .ok "SELECT 3"⟩, ⟨"002_a.sql", false, .ok "SELECT 2"⟩,
   ⟨"002_b.sql", false, .ok "SELECT 22"⟩, ⟨"001_init.sql", false, .ok "SELECT 1"⟩]

/-- A migration followed by one whose SQL empties the bookkeeping table. -/
def resetDir : List DirEntry :=
  [⟨"001_init.sql", false, .ok "CREATE TABLE t(id int)"⟩,
   ⟨"002_reset.sql", false, .ok "DELETE FROM schema_migrations"⟩]

/-- Two files sharing version 1. -/
def sharedOneDir : List DirEntry :=
  [⟨"001_a.sql", false, .ok "SELECT 1"⟩, ⟨"001_b.sql", false, .ok "SELECT 2"⟩]

/-- One migration whose SQL violates a constraint checked at commit. -/
def deferDir : List DirEntry := [⟨"001_defer.sql", false, .ok "DEFER INSERT INTO c VALUES (0)"⟩]

theorem hasSuffix_iff (s suffix : List Char) :
    hasSuffix s suffix = true ↔ suffix <:+ s := by
  unfold hasSuffix
  simp only [Bool.and_eq_true, decide_eq_true_eq, beq_iff_eq]
  constructor
  · rintro ⟨_, h⟩
    have h1 := List.take_append_drop (s.length - suffix.length) s
    rw [h] at h1
    exact ⟨_, h1⟩
  · rintro ⟨t, rfl⟩
    refine ⟨by simp, ?_⟩
    simp

theorem trimSuffix_append (s suffix : List Char) (h : suffix <:+ s) :
    trimSuffix s suffix ++ suffix = s := by
  obtain ⟨t, rfl⟩ := h
  have h1 : hasSuffix (t ++ suffix) suffix = true := (hasSuffix_iff _ _).2 ⟨t, rfl⟩
  simp [trimSuffix, h1]

theorem cutFirst_some (sep : Char) (s a b : List Char) (h : cutFirst sep s = some (a, b)) :
    s = a ++ sep :: b ∧ sep ∉ a := by
  induction s generalizing a b with
  | nil => simp [cutFirst] at h
  | cons c cs ih =>
    unfold cutFirst at h
    split at h
    · rename_i hc
      simp only [Option.some.injEq, Prod.mk.injEq] at h
      obtain ⟨rfl, rfl⟩ := h
      simp [hc]
    · rename_i hc
      split at h
      · rename_i a1 b1 h1
        simp only [Option.some.injEq, Prod.mk.injEq] at h
        obtain ⟨rfl, rfl⟩ := h
        obtain ⟨h2, h3⟩ := ih a1 b1 h1
        refine ⟨by rw [h2]; simp, ?_⟩
        simp only [List.mem_cons, not_or]
        exact ⟨fun h4 => hc h4.symm, h3⟩
      · simp at h

theorem cutFirst_none (sep : Char) (s : List Char) (h : cutFirst sep s = none) : sep ∉ s := by
  induction s with
  | nil => simp
  | cons c cs ih =>
    unfold cutFirst at h
    split at h
    · simp at h
    · rename_i hc
      split at h
      · simp at h
      · rename_i h1
        simp only [List.mem_cons, not_or]
        exact ⟨fun h4 => hc h4.symm, ih h1⟩

theorem cutFirst_append (sep : Char) (a b : List Char) (h : sep ∉ a) :
    cutFirst sep (a ++ sep :: b) = some (a, b) := by
  induction a with
  | nil => simp [cutFirst]
  | cons c cs ih =>
    simp only [List.mem_cons, not_or] at h
    have hc : ¬ c = sep := fun h1 => h.1 h1.symm
    simp [cutFirst, hc, ih h.2]

theorem takeWhile_append_sep (sep : Char) (a b : List Char) (h : sep ∉ a) :
    (a ++ sep :: b).takeWhile (fun c => c != sep) = a := by
  induction a with
  | nil => simp
  | cons c cs ih =>
    simp only [List.mem_cons, not_or] at h
    have hc : ¬ c = sep := fun h1 => h.1 h1.symm
    have hb : (c != sep) = true := by simp [hc]
    rw [List.cons_append, List.takeWhile_cons, hb]
    simp [ih h.2]

/-! ## Facts about `sortSlice` -/

theorem insertLeft_perm {α : Type} (less : α → α → Bool) (x : α) (l : List α) :
    (insertLeft less x l).Perm (x :: l) := by
  induction l with
  | nil => simp [insertLeft]
  | cons e r ih =>
    unfold insertLeft
    split
    · exact (List.Perm.cons e ih).trans (List.Perm.swap x e r)
    · exact List.Perm.refl _

theorem foldl_insertLeft_perm {α : Type} (less : α → α → Bool) (data acc : List α) :
    (data.foldl (fun acc x => insertLeft less x acc) acc).Perm (data ++ acc) := by
  induction data generalizing acc with
  | nil => simp
  | cons x xs ih =>
    simp only [List.foldl_cons, List.cons_append]
    exact (ih _).trans ((List.Perm.append_left xs (insertLeft_perm less x acc)).trans
      List.perm_middle)

theorem sortSlice_perm {α : Type} (less : α → α → Bool) (data : List α) :
    (sortSlice less data).Perm data := by
  unfold sortSlice
  have h := foldl_insertLeft_perm less data []
  rw [List.append_nil] at h
  exact (List.reverse_perm _).trans h

theorem insertLeft_descending {α : Type} (key : α → Int) (x : α) (l : List α)
    (h : l.Pairwise (fun a b => key b ≤ key a)) :
    (insertLeft (fun a b => decide (key a < key b)) x l).Pairwise
      (fun a b => key b ≤ key a) := by
  induction l with
  | nil => simp [insertLeft]
  | cons e r ih =>
    rw [List.pairwise_cons] at h
    unfold insertLeft
    split
    · rename_i hlt
      simp only [decide_eq_true_eq] at hlt
      rw [List.pairwise_cons]
      refine ⟨?_, ih h.2⟩
      intro y hy
      cases List.mem_cons.1 ((List.Perm.mem_iff (insertLeft_perm _ x r)).1 hy) with
      | inl h1 => rw [h1]; exact le_of_lt hlt
      | inr h1 => exact h.1 y h1
    · rename_i hlt
      simp only [decide_eq_true_eq, not_lt] at hlt
      rw [List.pairwise_cons]
      refine ⟨?_, List.pairwise_cons.2 h⟩
      intro y hy
      cases List.mem_cons.1 hy with
      | inl h1 => rw [h1]; exact hlt
      | inr h1 => exact le_trans (h.1 y h1) hlt

theorem foldl_insertLeft_descending {α : Type} (key : α → Int) (data acc : List α)
    (h : acc.Pairwise (fun a b => key b ≤ key a)) :
    (data.foldl (fun acc x => insertLeft (fun a b => decide (key a < key b)) x acc) acc).Pairwise
      (fun a b => key b ≤ key a) := by
  induction data generalizing acc with
  | nil => simpa using h
  | cons x xs ih =>
    simp only [List.foldl_cons]
    exact ih _ (insertLeft_descending key x acc h)

theorem sortSlice_sorted {α : Type} (key : α → Int) (data : List α) :
    (sortSlice (fun a b => decide (key a < key b)) data).Pairwise
      (fun a b => key a ≤ key b) := by
  unfold sortSlice
  rw [List.pairwise_reverse]
  exact foldl_insertLeft_descending key data [] List.Pairwise.nil

/-! ## The loader, one entry at a time -/

theorem loadLoop_pass (e : DirEntry) (files : List DirEntry) (acc : List Migration)
    (h : e.isDir = true ∨ hasSuffix e.name.data ".sql".data = false) :
    loadLoop (e :: files) acc = loadLoop files acc := by
  rw [loadLoop]
  have h1 : (e.isDir || !hasSuffix e.name.data ".sql".data) = true := by
    rcases h with h | h <;> simp [h]
  rw [if_pos h1]

theorem loadLoop_noSep (e : DirEntry) (files : List DirEntry) (acc : List Migration)
    (h0 : e.isDir = false) (h1 : hasSuffix e.name.data ".sql".data = true)
    (h2 : cutFirst '_' e.name.data = none) :
    loadLoop (e :: files) acc =
      { loadLoop files acc with
        log := ("Skipping file with invalid name format: " ++ e.name)
          :: (loadLoop files acc).log } := by
  rw [loadLoop]
  have h3 : ¬ ((e.isDir || !hasSuffix e.name.data ".sql".data) = true) := by simp [h0, h1]
  rw [if_neg h3]
  simp only [splitN2, h2]

theorem loadLoop_badVersion (e : DirEntry) (files : List DirEntry) (acc : List Migration)
    (p0 rest : List Char)
    (h0 : e.isDir = false) (h1 : hasSuffix e.name.data ".sql".data = true)
    (h2 : cutFirst '_' e.name.data = some (p0, rest)) (h3 : Atoi p0 = none) :
    loadLoop (e :: files) acc =
      { loadLoop files acc with
        log := ("Skipping file with invalid version number: " ++ e.name)
          :: (loadLoop files acc).log } := by
  rw [loadLoop]
  have h4 : ¬ ((e.isDir || !hasSuffix e.name.data ".sql".data) = true) := by simp [h0, h1]
  rw [if_neg h4]
  simp only [splitN2, h2, h3]

theorem loadLoop_readError (e : DirEntry) (files : List DirEntry) (acc : List Migration)
    (p0 rest : List Char) (v : Int) (err : Cause)
    (h0 : e.isDir = false) (h1 : hasSuffix e.name.data ".sql".data = true)
    (h2 : cutFirst '_' e.name.data = some (p0, rest)) (h3 : Atoi p0 = some v)
    (h5 : e.body = .error err) :
    loadLoop (e :: files) acc =
      { log := [], reads := [e.name],
        result := .error
          { msg := "failed to read migration file " ++ e.name ++ ": " ++ err,
            cause := err } } := by
  rw [loadLoop]
  have h4 : ¬ ((e.isDir || !hasSuffix e.name.data ".sql".data) = true) := by simp [h0, h1]
  rw [if_neg h4]
  simp only [splitN2, h2, h3, h5]

theorem loadLoop_accept (e : DirEntry) (files : List DirEntry) (acc : List Migration)
    (p0 rest : List Char) (v : Int) (content : String)
    (h0 : e.isDir = false) (h1 : hasSuffix e.name.data ".sql".data = true)
    (h2 : cutFirst '_' e.name.data = some (p0, rest)) (h3 : Atoi p0 = some v)
    (h5 : e.body = .ok content) :
    loadLoop (e :: files) acc =
      { log := (loadLoop files (acc ++ [Migration.mk v
            (String.mk (trimSuffix e.name.data ".sql".data)) content])).log,
        reads := e.name :: (loadLoop files (acc ++ [Migration.mk v
            (String.mk (trimSuffix e.name.data ".sql".data)) content])).reads,
        result := (loadLoop files (acc ++ [Migration.mk v
            (String.mk (trimSuffix e.name.data ".sql".data)) content])).result } := by
  rw [loadLoop]
  have h4 : ¬ ((e.isDir || !hasSuffix e.name.data ".sql".data) = true) := by simp [h0, h1]
  rw [if_neg h4]
  simp only [splitN2, h2, h3, h5]

theorem loadLoop_skip (e : DirEntry) (files : List DirEntry) (acc : List Migration)
    (h : entryFate e = .skip) :
    (loadLoop (e :: files) acc).result = (loadLoop files acc).result ∧
      (loadLoop (e :: files) acc).reads = (loadLoop files acc).reads := by
  unfold entryFate at h
  split at h
  · rename_i hc
    rw [loadLoop_pass e files acc hc]
    exact ⟨rfl, rfl⟩
  · rename_i hc
    simp only [not_or, Bool.not_eq_true, Bool.not_eq_false] at hc
    split at h
    · rename_i h2
      rw [loadLoop_noSep e files acc hc.1 hc.2 h2]
      exact ⟨rfl, rfl⟩
    · rename_i p0 rest h2
      split at h
      · rename_i h3
        rw [loadLoop_badVersion e files acc p0 rest hc.1 hc.2 h2 h3]
        exact ⟨rfl, rfl⟩
      · split at h <;> simp at h

theorem loadLoop_fail (e : DirEntry) (files : List DirEntry) (acc : List Migration)
    (err : Cause) (h : entryFate e = .fail err) :
    (loadLoop (e :: files) acc).result = .error
      { msg := "failed to read migration file " ++ e.name ++ ": " ++ err, cause := err } ∧
      (loadLoop (e :: files) acc).reads = [e.name] := by
  unfold entryFate at h
  split at h
  · simp at h
  · rename_i hc
    simp only [not_or, Bool.not_eq_true, Bool.not_eq_false] at hc
    split at h
    · simp at h
    · rename_i p0 rest h2
      split at h
      · simp at h
      · rename_i v h3
        split at h
        · rename_i err1 h5
          simp only [EntryFate.fail.injEq] at h
          subst h
          rw [loadLoop_readError e files acc p0 rest v err1 hc.1 hc.2 h2 h3 h5]
          exact ⟨rfl, rfl⟩
        · simp at h

theorem loadLoop_accepted (e : DirEntry) (files : List DirEntry) (acc : List Migration)
    (m : Migration) (h : entryFate e = .accept m) :
    (loadLoop (e :: files) acc).result = (loadLoop files (acc ++ [m])).result ∧
      (loadLoop (e :: files) acc).reads = e.name :: (loadLoop files (acc ++ [m])).reads := by
  unfold entryFate at h
  split at h
  · simp at h
  · rename_i hc
    simp only [not_or, Bool.not_eq_true, Bool.not_eq_false] at hc
    split at h
    · simp at h
    · rename_i p0 rest h2
      split at h
      · simp at h
      · rename_i v h3
        split at h
        · simp at h
        · rename_i content h5
          simp only [EntryFate.accept.injEq] at h
          subst h
          rw [loadLoop_accept e files acc p0 rest v content hc.1 hc.2 h2 h3 h5]
          exact ⟨rfl, rfl⟩

/-! ## The loop body against the specification's reading of a file name -/

theorem sql_data : ".sql".data = ['.', 's', 'q', 'l'] := rfl

theorem dropLast_sql (t : List Char) :
    (t ++ ".sql".data).dropLast.dropLast.dropLast.dropLast = t := by
  have h : t ++ ".sql".data = (((t ++ ['.']) ++ ['s']) ++ ['q']) ++ ['l'] := by
    simp [sql_data]
  rw [h, List.dropLast_concat, List.dropLast_concat, List.dropLast_concat,
    List.dropLast_concat]

theorem trimSuffix_eq (t suffix : List Char) : trimSuffix (t ++ suffix) suffix = t := by
  have h := trimSuffix_append (t ++ suffix) suffix ⟨t, rfl⟩
  exact List.append_cancel_right h

theorem cutFirst_of_mem (sep : Char) (s : List Char) (h : sep ∈ s) :
    ∃ a b, cutFirst sep s = some (a, b) := by
  cases hc : cutFirst sep s with
  | none => exact absurd h (cutFirst_none sep s hc)
  | some ab => exact ⟨ab.1, ab.2, rfl⟩

theorem versionPrefix_of_cut (s a b : List Char) (h : cutFirst '_' s = some (a, b)) :
    versionPrefix s = a := by
  obtain ⟨h1, h2⟩ := cutFirst_some '_' s a b h
  rw [h1]
  exact takeWhile_append_sep '_' a b h2

theorem entryFate_accept (e : DirEntry) (m : Migration) (h : entryFate e = .accept m) :
    acceptedRecord e = some m := by
  unfold entryFate at h
  split at h
  · simp at h
  · rename_i hc
    simp only [not_or, Bool.not_eq_true, Bool.not_eq_false] at hc
    split at h
    · simp at h
    · rename_i p0 rest h2
      split at h
      · simp at h
      · rename_i v h3
        split at h
        · simp at h
        · rename_i content h5
          simp only [EntryFate.accept.injEq] at h
          subst h
          have hs : ".sql".data <:+ e.name.data := (hasSuffix_iff _ _).1 hc.2
          have hm : '_' ∈ e.name.data := by
            rw [(cutFirst_some '_' _ _ _ h2).1]; simp
          have hp : versionPrefix e.name.data = p0 := versionPrefix_of_cut _ _ _ h2
          have ht : trimSuffix e.name.data ".sql".data =
              e.name.data.dropLast.dropLast.dropLast.dropLast := by
            obtain ⟨t, ht⟩ := hs
            rw [← ht, trimSuffix_eq, dropLast_sql]
          unfold acceptedRecord
          rw [if_pos ⟨hc.1, hs, hm⟩, hp, h3, h5, ht]

theorem entryFate_skip (e : DirEntry) (h : entryFate e = .skip) : acceptedRecord e = none := by
  unfold entryFate at h
  unfold acceptedRecord
  split at h
  · rename_i hc
    rw [if_neg]
    rintro ⟨h0, h1, _⟩
    rcases hc with hc | hc
    · rw [h0] at hc; exact Bool.noConfusion hc
    · rw [(hasSuffix_iff _ _).2 h1] at hc; exact Bool.noConfusion hc
  · split at h
    · rename_i h2
      rw [if_neg]
      rintro ⟨_, _, h3⟩
      exact cutFirst_none '_' _ h2 h3
    · rename_i p0 rest h2
      split at h
      · rename_i h3
        split
        · rw [versionPrefix_of_cut _ _ _ h2, h3]
        · rfl
      · split at h <;> simp at h

theorem rejected_skip (e : DirEntry) (h : rejected e) : entryFate e = .skip := by
  unfold entryFate
  split
  · rfl
  · rename_i hc
    simp only [not_or, Bool.not_eq_true, Bool.not_eq_false] at hc
    have hs : ".sql".data <:+ e.name.data := (hasSuffix_iff _ _).1 hc.2
    split
    · rfl
    · rename_i p0 rest h2
      have hp : versionPrefix e.name.data = p0 := versionPrefix_of_cut _ _ _ h2
      have hm : '_' ∈ e.name.data := by
        rw [(cutFirst_some '_' _ _ _ h2).1]; simp
      rcases h with h | h | h | h
      · rw [hc.1] at h; exact Bool.noConfusion h
      · exact absurd hs h
      · exact absurd hm h
      · rw [hp] at h
        rw [h]

/-- The records of a successful load, before sorting, are those the
specification builds from the entries, in enumeration order. -/
theorem loadLoop_result (files : List DirEntry) (acc ms : List Migration)
    (h : (loadLoop files acc).result = .ok ms) :
    ms = acc ++ files.filterMap acceptedRecord := by
  induction files generalizing acc with
  | nil =>
    simp only [loadLoop, Except.ok.injEq] at h
    simp [h]
  | cons e files ih =>
    cases hf : entryFate e with
    | skip =>
      rw [(loadLoop_skip e files acc hf).1] at h
      rw [List.filterMap_cons, entryFate_skip e hf]
      exact ih acc h
    | fail err =>
      rw [(loadLoop_fail e files acc err hf).1] at h
      exact Except.noConfusion h
    | accept m =>
      rw [(loadLoop_accepted e files acc m hf).1] at h
      rw [List.filterMap_cons, entryFate_accept e m hf]
      have h1 := ih (acc ++ [m]) h
      simpa using h1

theorem loadMigrations_ok (files : List DirEntry) (ms : List Migration)
    (h : (loadMigrations (.ok files)).result = .ok ms) :
    ms = sortSlice (fun a b => decide (a.Version < b.Version))
      (files.filterMap acceptedRecord) := by
  unfold loadMigrations at h
  simp only at h
  split at h
  · exact Except.noConfusion h
  · rename_i ms0 h0
    simp only [Except.ok.injEq] at h
    rw [← h, loadLoop_result files [] ms0 h0]
    simp

theorem loadLoop_congr (l1 l2 : List DirEntry)
    (h : ∀ acc, (loadLoop l1 acc).result = (loadLoop l2 acc).result ∧
      (loadLoop l1 acc).reads = (loadLoop l2 acc).reads)
    (x : DirEntry) (acc : List Migration) :
    (loadLoop (x :: l1) acc).result = (loadLoop (x :: l2) acc).result ∧
      (loadLoop (x :: l1) acc).reads = (loadLoop (x :: l2) acc).reads := by
  cases hf : entryFate x with
  | skip =>
    rw [(loadLoop_skip x l1 acc hf).1, (loadLoop_skip x l1 acc hf).2,
      (loadLoop_skip x l2 acc hf).1, (loadLoop_skip x l2 acc hf).2]
    exact h acc
  | fail err =>
    rw [(loadLoop_fail x l1 acc err hf).1, (loadLoop_fail x l1 acc err hf).2,
      (loadLoop_fail x l2 acc err hf).1, (loadLoop_fail x l2 acc err hf).2]
    exact ⟨rfl, rfl⟩
  | accept m =>
    rw [(loadLoop_accepted x l1 acc m hf).1, (loadLoop_accepted x l1 acc m hf).2,
      (loadLoop_accepted x l2 acc m hf).1, (loadLoop_accepted x l2 acc m hf).2]
    exact ⟨(h _).1, by rw [(h _).2]⟩

theorem loadLoop_remove (pre post : List DirEntry) (e : DirEntry) (h : entryFate e = .skip)
    (acc : List Migration) :
    (loadLoop (pre ++ e :: post) acc).result = (loadLoop (pre ++ post) acc).result ∧
      (loadLoop (pre ++ e :: post) acc).reads = (loadLoop (pre ++ post) acc).reads := by
  induction pre generalizing acc with
  | nil => exact loadLoop_skip e post acc h
  | cons x pre ih => exact loadLoop_congr _ _ ih x acc

theorem loadLoop_reads (files : List DirEntry) (acc : List Migration) (n : String)
    (h : n ∈ (loadLoop files acc).reads) : ∃ x ∈ files, x.name = n := by
  induction files generalizing acc with
  | nil => simp [loadLoop] at h
  | cons e files ih =>
    cases hf : entryFate e with
    | skip =>
      rw [(loadLoop_skip e files acc hf).2] at h
      obtain ⟨x, hx, hn⟩ := ih acc h
      exact ⟨x, List.mem_cons_of_mem _ hx, hn⟩
    | fail err =>
      rw [(loadLoop_fail e files acc err hf).2] at h
      exact ⟨e, List.mem_cons_self _ _, (List.mem_singleton.1 h).symm⟩
    | accept m =>
      rw [(loadLoop_accepted e files acc m hf).2] at h
      cases List.mem_cons.1 h with
      | inl h1 => exact ⟨e, List.mem_cons_self _ _, h1.symm⟩
      | inr h1 =>
        obtain ⟨x, hx, hn⟩ := ih _ h1
        exact ⟨x, List.mem_cons_of_mem _ hx, hn⟩

theorem loadMigrations_result (files : List DirEntry) :
    (loadMigrations (.ok files)).result =
      (match (loadLoop files []).result with
        | .error e => .error e
        | .ok ms => .ok (sortSlice (fun a b => decide (a.Version < b.Version)) ms)) ∧
    (loadMigrations (.ok files)).reads = (loadLoop files []).reads ∧
    (loadMigrations (.ok files)).log = (loadLoop files []).log := by
  unfold loadMigrations
  simp only
  split <;> simp_all

/-! ## Facts about `Atoi` -/

theorem digitVal_isDigit (c : Char) (d : Nat) (h : digitVal c = some d) : c.isDigit = true := by
  unfold digitVal at h
  split at h
  · rename_i hc
    simp only [Char.isDigit, Bool.and_eq_true, decide_eq_true_eq]
    have h0 : '0'.toNat = 48 := rfl
    have h9 : '9'.toNat = 57 := rfl
    rw [h0, h9] at hc
    exact ⟨by
      show (48 : UInt32) ≤ c.val
      rw [UInt32.le_def]; exact hc.1, by
      show c.val ≤ (57 : UInt32)
      rw [UInt32.le_def]; exact hc.2⟩
  · simp at h

theorem parseDigits_all (ds : List Char) (n k : Nat) (h : parseDigits ds n = some k) :
    ds.all Char.isDigit = true := by
  induction ds generalizing n with
  | nil => rfl
  | cons c cs ih =>
    unfold parseDigits at h
    split at h
    · rename_i d hd
      simp only [List.all_cons, Bool.and_eq_true]
      exact ⟨digitVal_isDigit c d hd, ih _ h⟩
    · simp at h

theorem Atoi_cases (s : List Char) (v : Int) (h : Atoi s = some v) :
    ∃ ds n, ds ≠ [] ∧ parseDigits ds 0 = some n ∧
      ((s = '-' :: ds ∧ v = -(n : Int) ∧ n ≤ 2 ^ 63) ∨
       ((s = '+' :: ds ∨ (s = ds ∧ s.head? ≠ some '-' ∧ s.head? ≠ some '+')) ∧
          v = (n : Int) ∧ n < 2 ^ 63)) := by
  unfold Atoi at h
  split at h
  · simp at h
  · rename_i neg ds hne hs
    split at h
    · simp at h
    · rename_i n hn
      refine ⟨ds, n, fun h0 => hne h0, hn, ?_⟩
      unfold stripSign at hs
      split at hs
      · simp only [Prod.mk.injEq] at hs
        obtain ⟨rfl, rfl⟩ := hs
        left
        simp only [if_true] at h
        split at h
        · rename_i hle
          simp only [Option.some.injEq] at h
          exact ⟨rfl, h.symm, hle⟩
        · simp at h
      · simp only [Prod.mk.injEq] at hs
        obtain ⟨rfl, rfl⟩ := hs
        right
        simp only [Bool.false_eq_true, if_false] at h
        split at h
        · rename_i hlt
          simp only [Option.some.injEq] at h
          exact ⟨Or.inl rfl, h.symm, hlt⟩
        · simp at h
      · rename_i hm hp
        simp only [Prod.mk.injEq] at hs
        obtain ⟨rfl, rfl⟩ := hs
        right
        simp only [Bool.false_eq_true, if_false] at h
        split at h
        · rename_i hlt
          simp only [Option.some.injEq] at h
          refine ⟨Or.inr ⟨rfl, ?_, ?_⟩, h.symm, hlt⟩
          · intro h1
            cases s with
            | nil => simp at h1
            | cons c cs =>
              simp only [List.head?_cons, Option.some.injEq] at h1
              exact hm cs (by rw [h1])
          · intro h1
            cases s with
            | nil => simp at h1
            | cons c cs =>
              simp only [List.head?_cons, Option.some.injEq] at h1
              exact hp cs (by rw [h1])
        · simp at h

theorem Atoi_signedDecimal (s : List Char) (v : Int) (h : Atoi s = some v) :
    signedDecimal s = true := by
  obtain ⟨ds, n, hne, hp, hc⟩ := Atoi_cases s v h
  have hall := parseDigits_all ds 0 n hp
  have hemp : ds.isEmpty = false := by
    cases ds with
    | nil => exact absurd rfl hne
    | cons c cs => rfl
  rcases hc with ⟨rfl, _, _⟩ | ⟨rfl | ⟨rfl, hm, hpl⟩, _, _⟩
  · simp [signedDecimal, hall, hemp]
  · simp [signedDecimal, hall, hemp]
  · unfold signedDecimal
    split
    · simp at hm
    · simp at hpl
    · simp [hall, hemp]

theorem Atoi_range (s : List Char) (v : Int) (h : Atoi s = some v) :
    -(2 : Int) ^ 63 ≤ v ∧ v < (2 : Int) ^ 63 := by
  obtain ⟨ds, n, _, _, hc⟩ := Atoi_cases s v h
  rcases hc with ⟨_, rfl, hn⟩ | ⟨_, rfl, hn⟩
  · constructor
    · have : (n : Int) ≤ 2 ^ 63 := by exact_mod_cast hn
      omega
    · have : (0 : Int) ≤ n := Int.natCast_nonneg n
      have h2 : (0 : Int) < 2 ^ 63 := by norm_num
      omega
  · constructor
    · have : (0 : Int) ≤ n := Int.natCast_nonneg n
      have h2 : (0 : Int) < 2 ^ 63 := by norm_num
      omega
    · exact_mod_cast hn

theorem Atoi_negative (s : List Char) (v : Int) (h : Atoi s = some v) (hv : v < 0) :
    s.head? = some '-' := by
  obtain ⟨ds, n, _, _, hc⟩ := Atoi_cases s v h
  rcases hc with ⟨rfl, _, _⟩ | ⟨_, rfl, _⟩
  · rfl
  · have : (0 : Int) ≤ n := Int.natCast_nonneg n
    omega

/-! ## What an accepted entry looks like -/

theorem acceptedRecord_some (e : DirEntry) (m : Migration) (h : acceptedRecord e = some m) :
    e.isDir = false ∧ e.name = m.Name ++ ".sql" ∧ e.body = .ok m.Content ∧
      ∃ a b, m.Name.data = a ++ '_' :: b ∧ '_' ∉ a ∧ versionPrefix e.name.data = a ∧
        Atoi a = some m.Version := by
  unfold acceptedRecord at h
  split at h
  · rename_i hc
    obtain ⟨h0, ⟨t, ht⟩, hm⟩ := hc
    split at h
    · rename_i v content hv hb
      simp only [Option.some.injEq] at h
      subst h
      simp only
      rw [← ht, dropLast_sql]
      have hname : e.name = String.mk t ++ ".sql" := by
        apply String.ext
        rw [String.data_append, ← ht]
      have hmt : '_' ∈ t := by
        rw [← ht, List.mem_append] at hm
        rcases hm with hm | hm
        · exact hm
        · rw [sql_data] at hm
          simp at hm
      obtain ⟨a, b, hab⟩ := cutFirst_of_mem '_' t hmt
      obtain ⟨h1, h2⟩ := cutFirst_some '_' t a b hab
      have hpre : versionPrefix (t ++ ".sql".data) = a := by
        rw [h1, List.append_assoc, List.cons_append]
        exact takeWhile_append_sep '_' a _ h2
      refine ⟨h0, hname, hb, a, b, h1, h2, hpre, ?_⟩
      rw [← ht, hpre] at hv
      exact hv
    · simp at h
  · simp at h

theorem mem_loadMigrations (files : List DirEntry) (ms : List Migration)
    (h : (loadMigrations (.ok files)).result = .ok ms) (m : Migration) (hm : m ∈ ms) :
    ∃ e ∈ files, acceptedRecord e = some m := by
  rw [loadMigrations_ok files ms h] at hm
  have h1 := (List.Perm.mem_iff (sortSlice_perm _ _)).1 hm
  rw [List.mem_filterMap] at h1
  exact h1

theorem loadMigrations_remove (pre post : List DirEntry) (e : DirEntry)
    (h : entryFate e = .skip) :
    (loadMigrations (.ok (pre ++ e :: post))).result =
        (loadMigrations (.ok (pre ++ post))).result ∧
      (loadMigrations (.ok (pre ++ e :: post))).reads =
        (loadMigrations (.ok (pre ++ post))).reads := by
  obtain ⟨h1, h2⟩ := loadLoop_remove pre post e h []
  obtain ⟨a1, a2, _⟩ := loadMigrations_result (pre ++ e :: post)
  obtain ⟨b1, b2, _⟩ := loadMigrations_result (pre ++ post)
  rw [a1, a2, b1, b2, h1, h2]
  exact ⟨rfl, rfl⟩

/-! ## Properties of the loader -/

/-- C4: when `loadMigrations` succeeds, its result is ordered by non-decreasing
`Version`, compared as integers, and is a permutation of the records built
from the accepted files, whatever the enumeration order: nothing is dropped or
duplicated, and files sharing a version are all kept. -/
theorem loadMigrations_sorted_permutation (files : List DirEntry) (ms : List Migration)
    (h : (loadMigrations (.ok files)).result = .ok ms) :
    ms.Pairwise (fun a b => a.Version ≤ b.Version) ∧
      ms.Perm (files.filterMap acceptedRecord) := by
  rw [loadMigrations_ok files ms h]
  exact ⟨sortSlice_sorted Migration.Version _, sortSlice_perm _ _⟩

/-- Witness for C4: a listing enumerated as 10, 9, 010, a sub-directory, 2 loads as
2, 9, 10, 10, with both files of version ten kept. -/
theorem loadMigrations_sorted_permutation_witness :
    (loadMigrations (.ok unorderedDir)).result =
        .ok [⟨2, "2_d", "D"⟩, ⟨9, "9_a", "A"⟩, ⟨10, "10_b", "B"⟩, ⟨10, "010_c", "C"⟩] ∧
      ([⟨2, "2_d", "D"⟩, ⟨9, "9_a", "A"⟩, ⟨10, "10_b", "B"⟩,
          ⟨10, "010_c", "C"⟩] : List Migration).Pairwise (fun a b => a.Version ≤ b.Version) ∧
      ([⟨2, "2_d", "D"⟩, ⟨9, "9_a", "A"⟩, ⟨10, "10_b", "B"⟩,
          ⟨10, "010_c", "C"⟩] : List Migration).Perm (unorderedDir.filterMap acceptedRecord) :=
  ⟨by decide, loadMigrations_sorted_permutation unorderedDir _ (by decide)⟩

/-- C5: an entry that is a sub-directory, or whose name does not end in `.sql`,
or has no `_`, or whose text before the first `_` is not an integer, changes
nothing in what `loadMigrations` returns (neither the records nor an error)
and is not read: the load behaves as on the listing without it. -/
theorem loadMigrations_filters_rejected (pre post : List DirEntry) (e : DirEntry)
    (h : rejected e) :
    (loadMigrations (.ok (pre ++ e :: post))).result =
        (loadMigrations (.ok (pre ++ post))).result ∧
      (loadMigrations (.ok (pre ++ e :: post))).reads =
        (loadMigrations (.ok (pre ++ post))).reads ∧
      ((∀ x ∈ pre ++ post, x.name ≠ e.name) →
        e.name ∉ (loadMigrations (.ok (pre ++ e :: post))).reads) := by
  obtain ⟨h1, h2⟩ := loadMigrations_remove pre post e (rejected_skip e h)
  refine ⟨h1, h2, ?_⟩
  intro hne hmem
  rw [h2, (loadMigrations_result (pre ++ post)).2.1] at hmem
  obtain ⟨x, hx, hn⟩ := loadLoop_reads _ _ _ hmem
  exact hne x hx hn

/-- Witness for C5 (Scenario D): with `notes.txt` and `abc_bad.sql` beside
`001_init.sql`, exactly the migration `001_init` of version 1 is loaded and
only its file is read. -/
theorem loadMigrations_filters_rejected_witness :
    rejected ⟨"abc_bad.sql", false, .ok "SELECT 1"⟩ ∧
      (loadMigrations (.ok scenarioD)).result =
        .ok [⟨1, "001_init", "CREATE TABLE t(id int)"⟩] ∧
      (loadMigrations (.ok scenarioD)).reads = ["001_init.sql"] ∧
      ((loadMigrations (.ok ([⟨"notes.txt", false, .ok "remember"⟩] ++
            ⟨"abc_bad.sql", false, .ok "SELECT 1"⟩ ::
              [⟨"001_init.sql", false, .ok "CREATE TABLE t(id int)"⟩]))).result =
          (loadMigrations (.ok ([⟨"notes.txt", false, .ok "remember"⟩] ++
              [⟨"001_init.sql", false, .ok "CREATE TABLE t(id int)"⟩]))).result ∧
        (loadMigrations (.ok ([⟨"notes.txt", false, .ok "remember"⟩] ++
            ⟨"abc_bad.sql", false, .ok "SELECT 1"⟩ ::
              [⟨"001_init.sql", false, .ok "CREATE TABLE t(id int)"⟩]))).reads =
          (loadMigrations (.ok ([⟨"notes.txt", false, .ok "remember"⟩] ++
              [⟨"001_init.sql", false, .ok "CREATE TABLE t(id int)"⟩]))).reads ∧
        ((∀ x ∈ [⟨"notes.txt", false, .ok "remember"⟩] ++
              [(⟨"001_init.sql", false, .ok "CREATE TABLE t(id int)"⟩ : DirEntry)],
            x.name ≠ "abc_bad.sql") →
          "abc_bad.sql" ∉ (loadMigrations (.ok ([⟨"notes.txt", false, .ok "remember"⟩] ++
            ⟨"abc_bad.sql", false, .ok "SELECT 1"⟩ ::
              [⟨"001_init.sql", false, .ok "CREATE TABLE t(id int)"⟩]))).reads)) :=
  ⟨Or.inr (Or.inr (Or.inr (by decide))), by decide, by decide,
    loadMigrations_filters_rejected [⟨"notes.txt", false, .ok "remember"⟩]
      [⟨"001_init.sql", false, .ok "CREATE TABLE t(id int)"⟩]
      ⟨"abc_bad.sql", false, .ok "SELECT 1"⟩ (Or.inr (Or.inr (Or.inr (by decide))))⟩

/-- C9: every record returned by `loadMigrations` comes from a regular file
whose name is the record's `Name` followed by `.sql`, and `Name` begins with
the version prefix followed by `_`: splitting `Name` at its first `_` gives a
prefix that `Atoi` parses to the record's `Version`. -/
theorem loadMigrations_name (files : List DirEntry) (ms : List Migration)
    (h : (loadMigrations (.ok files)).result = .ok ms) (m : Migration) (hm : m ∈ ms) :
    (∃ e ∈ files, e.isDir = false ∧ e.name = m.Name ++ ".sql" ∧ e.body = .ok m.Content) ∧
      ∃ p rest, splitN2 m.Name.data '_' = [p, rest] ∧ Atoi p = some m.Version := by
  obtain ⟨e, he, hacc⟩ := mem_loadMigrations files ms h m hm
  obtain ⟨h0, hname, hbody, a, b, hab, hna, _, hv⟩ := acceptedRecord_some e m hacc
  refine ⟨⟨e, he, h0, hname, hbody⟩, a, b, ?_, hv⟩
  unfold splitN2
  rw [hab, cutFirst_append '_' a b hna]

/-- Witness for C9: the record loaded from `001_init.sql`. -/
theorem loadMigrations_name_witness :
    (∃ e ∈ scenarioD, e.isDir = false ∧
        e.name = (⟨1, "001_init", "CREATE TABLE t(id int)"⟩ : Migration).Name ++ ".sql" ∧
        e.body = .ok (⟨1, "001_init", "CREATE TABLE t(id int)"⟩ : Migration).Content) ∧
      ∃ p rest,
        splitN2 (⟨1, "001_init", "CREATE TABLE t(id int)"⟩ : Migration).Name.data '_'
          = [p, rest] ∧
        Atoi p = some (⟨1, "001_init", "CREATE TABLE t(id int)"⟩ : Migration).Version :=
  loadMigrations_name scenarioD [⟨1, "001_init", "CREATE TABLE t(id int)"⟩] (by decide)
    ⟨1, "001_init", "CREATE TABLE t(id int)"⟩ (by decide)

/-- C6 as stated fails: the file `-5_drop.sql` is loaded, with the negative
version `-5`. -/
theorem loadMigrations_negative_version :
    (loadMigrations (.ok negativeDir)).result = .ok [⟨-5, "-5_drop", "DROP TABLE t"⟩] ∧
      ¬ (∀ ms, (loadMigrations (.ok negativeDir)).result = .ok ms →
          ∀ m ∈ ms, 0 ≤ m.Version) := by
  refine ⟨by decide, ?_⟩
  intro h
  have h1 := h [⟨-5, "-5_drop", "DROP TABLE t"⟩] (by decide) ⟨-5, "-5_drop", "DROP TABLE t"⟩
    (List.mem_singleton.2 rfl)
  exact absurd h1 (by decide)

/-- C6, amended: every record returned by `loadMigrations` has as `Version` the
value `Atoi` gives for the optionally signed decimal text before the first `_`
of its name, within the range of a 64-bit `int`, and negative only when the
name begins with `-`; a file whose text before the first `_` is not an
optionally signed decimal integer is skipped: the load returns what it returns
without that file. -/
theorem loadMigrations_version_sign (files : List DirEntry) (ms : List Migration)
    (h : (loadMigrations (.ok files)).result = .ok ms) :
    (∀ m ∈ ms, (-(2 : Int) ^ 63 ≤ m.Version ∧ m.Version < (2 : Int) ^ 63) ∧
        (m.Version < 0 → m.Name.data.head? = some '-') ∧
        ∃ a b, m.Name.data = a ++ '_' :: b ∧ '_' ∉ a ∧ signedDecimal a = true ∧
          Atoi a = some m.Version) ∧
      (∀ pre post e, files = pre ++ e :: post →
        signedDecimal (versionPrefix e.name.data) = false →
        (loadMigrations (.ok (pre ++ post))).result = .ok ms) := by
  constructor
  · intro m hm
    obtain ⟨e, _, hacc⟩ := mem_loadMigrations files ms h m hm
    obtain ⟨_, _, _, a, b, hab, hna, _, hv⟩ := acceptedRecord_some e m hacc
    refine ⟨Atoi_range a _ hv, ?_, a, b, hab, hna, Atoi_signedDecimal a _ hv, hv⟩
    intro hneg
    have h1 := Atoi_negative a _ hv hneg
    rw [hab]
    cases a with
    | nil => simp at h1
    | cons c cs => simpa using h1
  · intro pre post e hfiles hsd
    have hrej : rejected e := by
      refine Or.inr (Or.inr (Or.inr ?_))
      cases hA : Atoi (versionPrefix e.name.data) with
      | none => rfl
      | some v =>
        rw [Atoi_signedDecimal _ v hA] at hsd
        exact Bool.noConfusion hsd
    rw [← (loadMigrations_remove pre post e (rejected_skip e hrej)).1, ← hfiles]
    exact h

/-- Witness for the amended C6: the listing with `-5_drop.sql` and `5x_bad.sql`. -/
theorem loadMigrations_version_sign_witness :
    (∀ m ∈ [(⟨-5, "-5_drop", "DROP TABLE t"⟩ : Migration)],
        (-(2 : Int) ^ 63 ≤ m.Version ∧ m.Version < (2 : Int) ^ 63) ∧
        (m.Version < 0 → m.Name.data.head? = some '-') ∧
        ∃ a b, m.Name.data = a ++ '_' :: b ∧ '_' ∉ a ∧ signedDecimal a = true ∧
          Atoi a = some m.Version) ∧
      (∀ pre post e, negativeDir = pre ++ e :: post →
        signedDecimal (versionPrefix e.name.data) = false →
        (loadMigrations (.ok (pre ++ post))).result =
          .ok [⟨-5, "-5_drop", "DROP TABLE t"⟩]) :=
  loadMigrations_version_sign negativeDir [⟨-5, "-5_drop", "DROP TABLE t"⟩] (by decide)

/-! ## The runner's loop, one migration at a time -/

section Loop

variable {σ : Type} (drv : Driver σ) (applied : List Int)

theorem applyLoop_skip (m : Migration) (ms : List Migration) (db : σ)
    (h : m.Version ∈ applied) :
    (applyLoop drv applied (m :: ms) db).err = (applyLoop drv applied ms db).err ∧
      (applyLoop drv applied (m :: ms) db).calls = (applyLoop drv applied ms db).calls ∧
      (applyLoop drv applied (m :: ms) db).db = (applyLoop drv applied ms db).db := by
  rw [applyLoop, if_pos h]
  exact ⟨rfl, rfl, rfl⟩

theorem applyLoop_beginFails (m : Migration) (ms : List Migration) (db db1 : σ) (e : Cause)
    (h : m.Version ∉ applied) (hb : drv.begin db = (some e, db1)) :
    applyLoop drv applied (m :: ms) db =
      { err := some { msg := "failed to begin transaction for migration " ++ itoa m.Version
                        ++ ": " ++ e, cause := e },
        log := ["Applying migration " ++ itoa m.Version ++ ": " ++ m.Name],
        calls := [.begin false], reads := [], db := db1 } := by
  rw [applyLoop, if_neg h]
  simp only [hb]

theorem applyLoop_execFails (m : Migration) (ms : List Migration) (db db1 db2 : σ) (e : Cause)
    (h : m.Version ∉ applied) (hb : drv.begin db = (none, db1))
    (hx : drv.txExec m.Content db1 = (some e, db2)) :
    applyLoop drv applied (m :: ms) db =
      { err := some { msg := "failed to execute migration " ++ itoa m.Version ++ " ("
                        ++ m.Name ++ "): " ++ e, cause := e },
        log := ["Applying migration " ++ itoa m.Version ++ ": " ++ m.Name],
        calls := [.begin true, .txExec m.Content false, .rollback],
        reads := [], db := drv.rollback db2 } := by
  rw [applyLoop, if_neg h]
  simp only [hb, hx]

theorem applyLoop_insertFails (m : Migration) (ms : List Migration) (db db1 db2 db3 : σ)
    (e : Cause) (h : m.Version ∉ applied) (hb : drv.begin db = (none, db1))
    (hx : drv.txExec m.Content db1 = (none, db2))
    (hi : drv.txInsert m.Version m.Name db2 = (some e, db3)) :
    applyLoop drv applied (m :: ms) db =
      { err := some { msg := "failed to record migration " ++ itoa m.Version ++ ": " ++ e,
                      cause := e },
        log := ["Applying migration " ++ itoa m.Version ++ ": " ++ m.Name],
        calls := [.begin true, .txExec m.Content true,
          .txInsert m.Version m.Name false, .rollback],
        reads := [], db := drv.rollback db3 } := by
  rw [applyLoop, if_neg h]
  simp only [hb, hx, hi]

theorem applyLoop_commitFails (m : Migration) (ms : List Migration) (db db1 db2 db3 db4 : σ)
    (e : Cause) (h : m.Version ∉ applied) (hb : drv.begin db = (none, db1))
    (hx : drv.txExec m.Content db1 = (none, db2))
    (hi : drv.txInsert m.Version m.Name db2 = (none, db3))
    (hc : drv.commit db3 = (some e, db4)) :
    applyLoop drv applied (m :: ms) db =
      { err := some { msg := "failed to commit migration " ++ itoa m.Version ++ ": " ++ e,
                      cause := e },
        log := ["Applying migration " ++ itoa m.Version ++ ": " ++ m.Name],
        calls := [.begin true, .txExec m.Content true,
          .txInsert m.Version m.Name true, .commit false],
        reads := [], db := db4 } := by
  rw [applyLoop, if_neg h]
  simp only [hb, hx, hi, hc]

theorem applyLoop_applied (m : Migration) (ms : List Migration) (db db1 db2 db3 db4 : σ)
    (h : m.Version ∉ applied) (hb : drv.begin db = (none, db1))
    (hx : drv.txExec m.Content db1 = (none, db2))
    (hi : drv.txInsert m.Version m.Name db2 = (none, db3))
    (hc : drv.commit db3 = (none, db4)) :
    (applyLoop drv applied (m :: ms) db).err = (applyLoop drv applied ms db4).err ∧
      (applyLoop drv applied (m :: ms) db).calls =
        [.begin true, .txExec m.Content true, .txInsert m.Version m.Name true, .commit true]
          ++ (applyLoop drv applied ms db4).calls ∧
      (applyLoop drv applied (m :: ms) db).db = (applyLoop drv applied ms db4).db := by
  rw [applyLoop, if_neg h]
  simp [hb, hx, hi, hc]

/-- How one pending or applied migration at the head of the list is handled:
the six exits of the loop body. -/
theorem applyLoop_cons_cases (m : Migration) (db : σ) :
    (m.Version ∈ applied) ∨
    (m.Version ∉ applied ∧ ∃ e db1, drv.begin db = (some e, db1)) ∨
    (m.Version ∉ applied ∧ ∃ db1, drv.begin db = (none, db1) ∧
      ((∃ e db2, drv.txExec m.Content db1 = (some e, db2)) ∨
       (∃ db2, drv.txExec m.Content db1 = (none, db2) ∧
         ((∃ e db3, drv.txInsert m.Version m.Name db2 = (some e, db3)) ∨
          (∃ db3, drv.txInsert m.Version m.Name db2 = (none, db3) ∧
            ((∃ e db4, drv.commit db3 = (some e, db4)) ∨
             (∃ db4, drv.commit db3 = (none, db4)))))))) := by
  by_cases h : m.Version ∈ applied
  · exact Or.inl h
  · right
    rcases hb : drv.begin db with ⟨_ | e, db1⟩
    · right
      refine ⟨h, db1, rfl, ?_⟩
      rcases hx : drv.txExec m.Content db1 with ⟨_ | e, db2⟩
      · right
        refine ⟨db2, rfl, ?_⟩
        rcases hi : drv.txInsert m.Version m.Name db2 with ⟨_ | e, db3⟩
        · right
          refine ⟨db3, rfl, ?_⟩
          rcases hc : drv.commit db3 with ⟨_ | e, db4⟩
          · exact Or.inr ⟨db4, rfl⟩
          · exact Or.inl ⟨e, db4, rfl⟩
        · exact Or.inl ⟨e, db3, rfl⟩
      · exact Or.inl ⟨e, db2, rfl⟩
    · exact Or.inl ⟨h, e, db1, rfl⟩

/-- The calls of the loop respect the transaction discipline. -/
theorem applyLoop_discipline (ms : List Migration) (db : σ) :
    txDiscipline false (applyLoop drv applied ms db).calls = true := by
  induction ms generalizing db with
  | nil => rfl
  | cons m ms ih =>
    rcases applyLoop_cons_cases drv applied m db with hs | ⟨hn, e, db1, hb⟩ |
      ⟨hn, db1, hb, hrest⟩
    · rw [(applyLoop_skip drv applied m ms db hs).2.1]
      exact ih db
    · rw [applyLoop_beginFails drv applied m ms db db1 e hn hb]
      rfl
    · rcases hrest with ⟨e, db2, hx⟩ | ⟨db2, hx, hrest⟩
      · rw [applyLoop_execFails drv applied m ms db db1 db2 e hn hb hx]
        rfl
      · rcases hrest with ⟨e, db3, hi⟩ | ⟨db3, hi, hrest⟩
        · rw [applyLoop_insertFails drv applied m ms db db1 db2 db3 e hn hb hx hi]
          rfl
        · rcases hrest with ⟨e, db4, hc⟩ | ⟨db4, hc⟩
          · rw [applyLoop_commitFails drv applied m ms db db1 db2 db3 db4 e hn hb hx hi hc]
            rfl
          · rw [(applyLoop_applied drv applied m ms db db1 db2 db3 db4 hn hb hx hi hc).2.1]
            simp only [List.cons_append, List.nil_append, txDiscipline, Bool.not_false,
              Bool.true_and]
            exact ih db4

end Loop

/-! ## Rendering of versions -/

theorem itoa_examples :
    itoa 0 = "0" ∧ itoa 7 = "7" ∧ itoa 1203 = "1203" ∧ itoa (-120) = "-120" := by
  decide


/-! ## Properties of the runner that hold for every database -/

theorem txDiscipline_rejects_open_at_return :
    txDiscipline false [.begin true, .txExec "SELECT 1" true] = false := rfl

theorem txDiscipline_rejects_nested_begin :
    txDiscipline false [.begin true, .begin true, .commit true, .commit true] = false := rfl

theorem txDiscipline_rejects_double_release :
    txDiscipline false [.begin true, .rollback, .rollback] = false := rfl

/-- C10: on every exit path of `RunMigrations`, the calls made on the database
respect the transaction discipline: a transaction is begun only when none is
open, each transaction begun gets exactly one `Commit` or `Rollback`, and none
is open when the function returns. -/
theorem RunMigrations_transactions_released {σ : Type} (drv : Driver σ)
    (dir : Except Cause (List DirEntry)) (db : σ) :
    txDiscipline false (RunMigrations drv dir db).calls = true := by
  unfold RunMigrations
  split
  · rfl
  · simp only
    split
    · rfl
    · split
      · rfl
      · split
        · simp only [queryCall]
          split <;> rfl
        · simp only [List.cons_append, List.nil_append, txDiscipline]
          exact applyLoop_discipline drv _ _ _

/-! ## The status report -/

theorem statusLoop_eq_map (applied : List Int) (ms : List Migration) :
    statusLoop applied ms =
      ms.map (fun m => statusLine m (if m.Version ∈ applied then "APPLIED" else "PENDING")) := by
  induction ms with
  | nil => rfl
  | cons m ms ih =>
    rw [statusLoop, ih]
    rfl

theorem loadMigrations_sorted (dir : Except Cause (List DirEntry)) (ms : List Migration)
    (h : (loadMigrations dir).result = .ok ms) :
    ms.Pairwise (fun a b => a.Version ≤ b.Version) := by
  cases dir with
  | error e => simp [loadMigrations] at h
  | ok files =>
    rw [loadMigrations_ok files ms h]
    exact sortSlice_sorted Migration.Version _

/-- C7: when the loader returns `ms` and the tracker returns `applied`,
`GetMigrationStatus` succeeds and logs, after what the loader logged and the
two header lines, exactly one line `Version <n>: <name> [<status>]` per
migration of `ms`, in the order of `ms` (ascending version), with status
`APPLIED` when the version is in `applied` and `PENDING` otherwise; the only
call it makes on the database is the tracker's query. -/
theorem GetMigrationStatus_report {σ : Type} (drv : Driver σ)
    (dir : Except Cause (List DirEntry)) (db db1 : σ) (ms : List Migration)
    (applied : List Int) (hl : (loadMigrations dir).result = .ok ms)
    (ha : getAppliedMigrations drv db = (.ok applied, db1)) :
    (GetMigrationStatus drv dir db).err = none ∧
      (GetMigrationStatus drv dir db).log =
        (loadMigrations dir).log ++ ["Migration Status:", "================"] ++
          ms.map (fun m =>
            statusLine m (if m.Version ∈ applied then "APPLIED" else "PENDING")) ∧
      ms.Pairwise (fun a b => a.Version ≤ b.Version) ∧
      (GetMigrationStatus drv dir db).calls = [.selectVersions true] ∧
      (∀ c ∈ (GetMigrationStatus drv dir db).calls, c.isWrite = false) ∧
      (GetMigrationStatus drv dir db).db = db1 := by
  have hq : queryCall drv db = .selectVersions true := by
    unfold getAppliedMigrations at ha
    unfold queryCall
    split at ha
    · simp at ha
    · rename_i rows db2 hs
      rw [hs]
  have hcalls : (GetMigrationStatus drv dir db).calls = [.selectVersions true] := by
    unfold GetMigrationStatus
    simp only [hl, ha]
  refine ⟨?_, ?_, loadMigrations_sorted dir ms hl, hcalls, ?_, ?_⟩
  · unfold GetMigrationStatus
    simp only [hl, ha]
  · unfold GetMigrationStatus
    simp only [hl, ha, statusLoop_eq_map]
  · intro c hc
    rw [hcalls] at hc
    rw [List.mem_singleton.1 hc]
    rfl
  · unfold GetMigrationStatus
    simp only [hl, ha]

/-- Witness for C7 (Scenario E): version 1 applied and version 2 not. -/
theorem GetMigrationStatus_report_witness :
    (GetMigrationStatus (pgDriver demoSem) (.ok scenarioE) scenarioEdb).log =
        ["Migration Status:", "================",
         "Version 1: 001_init [APPLIED]", "Version 2: 002_seed [PENDING]"] ∧
      ((GetMigrationStatus (pgDriver demoSem) (.ok scenarioE) scenarioEdb).err = none ∧
      (GetMigrationStatus (pgDriver demoSem) (.ok scenarioE) scenarioEdb).log =
        (loadMigrations (.ok scenarioE)).log ++ ["Migration Status:", "================"] ++
          ([⟨1, "001_init", "CREATE TABLE t(id int)"⟩,
            ⟨2, "002_seed", "INSERT INTO t VALUES (1)"⟩] : List Migration).map (fun m =>
            statusLine m (if m.Version ∈ [(1 : Int)] then "APPLIED" else "PENDING")) ∧
      ([⟨1, "001_init", "CREATE TABLE t(id int)"⟩,
          ⟨2, "002_seed", "INSERT INTO t VALUES (1)"⟩] : List Migration).Pairwise
        (fun a b => a.Version ≤ b.Version) ∧
      (GetMigrationStatus (pgDriver demoSem) (.ok scenarioE) scenarioEdb).calls =
        [.selectVersions true] ∧
      (∀ c ∈ (GetMigrationStatus (pgDriver demoSem) (.ok scenarioE) scenarioEdb).calls,
        c.isWrite = false) ∧
      (GetMigrationStatus (pgDriver demoSem) (.ok scenarioE) scenarioEdb).db = scenarioEdb) :=
  ⟨by decide,
    GetMigrationStatus_report (pgDriver demoSem) (.ok scenarioE) scenarioEdb scenarioEdb
      [⟨1, "001_init", "CREATE TABLE t(id int)"⟩, ⟨2, "002_seed", "INSERT INTO t VALUES (1)"⟩]
      [1] (by decide) rfl⟩

/-! ## The reference database, one statement at a time -/

section PgFacts

variable {U : Type} (S : PgSem U)

theorem pg_begin (db : Pg U) :
    (pgDriver S).begin db = (none, { db with tx := some (db.table, db.user) }) := rfl

theorem pg_txExec_committed (c : String) (db db2 : Pg U) (r : Option Cause)
    (h : (pgDriver S).txExec c db = (r, db2)) :
    db2.table = db.table ∧ db2.user = db.user := by
  simp only [pgDriver] at h
  split at h
  · simp only [Prod.mk.injEq] at h
    rw [← h.2]
    exact ⟨rfl, rfl⟩
  · split at h <;>
    · simp only [Prod.mk.injEq] at h
      rw [← h.2]
      exact ⟨rfl, rfl⟩

theorem pg_txExec_ok (c : String) (db db2 : Pg U) (h : (pgDriver S).txExec c db = (none, db2)) :
    ∃ w w1, db.tx = some w ∧ S.run c w = .ok w1 ∧ db2.tx = some w1 := by
  simp only [pgDriver] at h
  split at h
  · simp at h
  · rename_i w htx
    split at h
    · simp at h
    · rename_i w1 hrun
      simp only [Prod.mk.injEq, true_and] at h
      exact ⟨w, w1, htx, hrun, by rw [← h]⟩

theorem pg_txInsert_committed (v : Int) (n : String) (db db3 : Pg U) (r : Option Cause)
    (h : (pgDriver S).txInsert v n db = (r, db3)) :
    db3.table = db.table ∧ db3.user = db.user := by
  simp only [pgDriver] at h
  split at h
  · simp only [Prod.mk.injEq] at h
    rw [← h.2]
    exact ⟨rfl, rfl⟩
  · simp only [Prod.mk.injEq] at h
    rw [← h.2]
    exact ⟨rfl, rfl⟩
  · split at h
    · simp only [Prod.mk.injEq] at h
      rw [← h.2]
      exact ⟨rfl, rfl⟩
    · split at h <;>
      · simp only [Prod.mk.injEq] at h
        rw [← h.2]
        exact ⟨rfl, rfl⟩

theorem pg_txInsert_ok (v : Int) (n : String) (db db3 : Pg U) (t : Table) (u : U)
    (htx : db.tx = some (some t, u)) (h : (pgDriver S).txInsert v n db = (none, db3)) :
    (t.pk = true → v ∉ t.versions) ∧
      db3.tx = some (some { t with rows := t.rows ++ [(v, n)] }, u) := by
  simp only [pgDriver, htx] at h
  split at h
  · simp at h
  · rename_i hdup
    split at h
    · simp at h
    · simp only [Prod.mk.injEq, true_and] at h
      refine ⟨?_, by rw [← h]⟩
      intro hpk hmem
      apply hdup
      simp [hpk, hmem]

theorem pg_commit_fail (db db4 : Pg U) (e : Cause) (h : (pgDriver S).commit db = (some e, db4)) :
    db4.table = db.table ∧ db4.user = db.user := by
  simp only [pgDriver] at h
  split at h
  · simp only [Prod.mk.injEq] at h
    rw [← h.2]
    exact ⟨rfl, rfl⟩
  · split at h
    · simp at h
    · simp only [Prod.mk.injEq] at h
      rw [← h.2]
      exact ⟨rfl, rfl⟩

theorem pg_commit_ok (db db4 : Pg U) (t : Option Table) (u : U) (htx : db.tx = some (t, u))
    (h : (pgDriver S).commit db = (none, db4)) : db4.table = t ∧ db4.user = u := by
  simp only [pgDriver, htx] at h
  split at h
  · simp only [Prod.mk.injEq, true_and] at h
    rw [← h]
    exact ⟨rfl, rfl⟩
  · simp at h

/-- How the reference database handles the migration at the head of the list,
when the bookkeeping table exists and the migration's SQL leaves it alone: it
is skipped, or the run stops with an error and the table as it was, or its row
is appended and the loop goes on. -/
theorem pg_cons (applied : List Int) (m : Migration) (ms : List Migration) (db : Pg U)
    (t : Table) (hdb : db.table = some t) (hk : S.keeps m.Content) :
    (m.Version ∈ applied ∧
      (applyLoop (pgDriver S) applied (m :: ms) db).err =
        (applyLoop (pgDriver S) applied ms db).err ∧
      (applyLoop (pgDriver S) applied (m :: ms) db).calls =
        (applyLoop (pgDriver S) applied ms db).calls ∧
      (applyLoop (pgDriver S) applied (m :: ms) db).db =
        (applyLoop (pgDriver S) applied ms db).db) ∨
    (m.Version ∉ applied ∧
      (applyLoop (pgDriver S) applied (m :: ms) db).err ≠ none ∧
      committedVersions (applyLoop (pgDriver S) applied (m :: ms) db).calls = [] ∧
      (applyLoop (pgDriver S) applied (m :: ms) db).db.table = some t) ∨
    (m.Version ∉ applied ∧ (t.pk = true → m.Version ∉ t.versions) ∧
      ∃ db4 : Pg U, db4.table = some { t with rows := t.rows ++ [(m.Version, m.Name)] } ∧
        (applyLoop (pgDriver S) applied (m :: ms) db).err =
          (applyLoop (pgDriver S) applied ms db4).err ∧
        (applyLoop (pgDriver S) applied (m :: ms) db).calls =
          [.begin true, .txExec m.Content true, .txInsert m.Version m.Name true, .commit true]
            ++ (applyLoop (pgDriver S) applied ms db4).calls ∧
        (applyLoop (pgDriver S) applied (m :: ms) db).db =
          (applyLoop (pgDriver S) applied ms db4).db) := by
  rcases applyLoop_cons_cases (pgDriver S) applied m db with hs | ⟨hn, e, db1, hb⟩ |
    ⟨hn, db1, hb, hrest⟩
  · exact Or.inl ⟨hs, applyLoop_skip (pgDriver S) applied m ms db hs⟩
  · rw [pg_begin] at hb
    simp at hb
  · right
    have hb1 : db1 = { db with tx := some (db.table, db.user) } := by
      rw [pg_begin] at hb
      simp only [Prod.mk.injEq, true_and] at hb
      exact hb.symm
    have hdb1 : db1.table = some t := by rw [hb1]; exact hdb
    rcases hrest with ⟨e, db2, hx⟩ | ⟨db2, hx, hrest⟩
    · left
      rw [applyLoop_execFails (pgDriver S) applied m ms db db1 db2 e hn hb hx]
      refine ⟨hn, by simp, rfl, ?_⟩
      show db2.table = some t
      rw [(pg_txExec_committed S _ _ _ _ hx).1, hdb1]
    · have hdb2 : db2.table = some t := by rw [(pg_txExec_committed S _ _ _ _ hx).1, hdb1]
      obtain ⟨w, ⟨t1, u1⟩, htx1, hrun, htx2⟩ := pg_txExec_ok S _ _ _ hx
      have hw : w = (some t, db.user) := by
        rw [hb1] at htx1
        simp only [Option.some.injEq] at htx1
        rw [← htx1, hdb]
      rw [hw] at hrun
      have ht1 : t1 = some t := hk (some t) db.user t1 u1 hrun
      rw [ht1] at htx2
      rcases hrest with ⟨e, db3, hi⟩ | ⟨db3, hi, hrest⟩
      · left
        rw [applyLoop_insertFails (pgDriver S) applied m ms db db1 db2 db3 e hn hb hx hi]
        refine ⟨hn, by simp, rfl, ?_⟩
        show db3.table = some t
        rw [(pg_txInsert_committed S _ _ _ _ _ hi).1, hdb2]
      · have hdb3 : db3.table = some t := by
          rw [(pg_txInsert_committed S _ _ _ _ _ hi).1, hdb2]
        obtain ⟨hfresh, htx3⟩ := pg_txInsert_ok S _ _ _ _ t u1 htx2 hi
        rcases hrest with ⟨e, db4, hc⟩ | ⟨db4, hc⟩
        · left
          rw [applyLoop_commitFails (pgDriver S) applied m ms db db1 db2 db3 db4 e hn hb hx hi hc]
          refine ⟨hn, by simp, rfl, ?_⟩
          show db4.table = some t
          rw [(pg_commit_fail S _ _ _ hc).1, hdb3]
        · right
          exact ⟨hn, hfresh, db4, (pg_commit_ok S _ _ _ _ htx3 hc).1,
            applyLoop_applied (pgDriver S) applied m ms db db1 db2 db3 db4 hn hb hx hi hc⟩

end PgFacts

/-! ## The paths through `RunMigrations` -/

section Paths

variable {σ : Type} (drv : Driver σ)

theorem RunMigrations_loadFails (dir : Except Cause (List DirEntry)) (db db1 : σ) (e : Error)
    (hc : createMigrationsTable drv db = (none, db1))
    (hl : (loadMigrations dir).result = .error e) :
    (RunMigrations drv dir db).err = some e ∧
      (RunMigrations drv dir db).calls = [.createTable true] := by
  unfold RunMigrations
  simp [hc, hl]

theorem RunMigrations_empty (dir : Except Cause (List DirEntry)) (db db1 : σ)
    (ms : List Migration) (hc : createMigrationsTable drv db = (none, db1))
    (hl : (loadMigrations dir).result = .ok ms) (he : ms.length = 0) :
    (RunMigrations drv dir db).err = none ∧
      (RunMigrations drv dir db).calls = [.createTable true] ∧
      (RunMigrations drv dir db).db = db1 := by
  unfold RunMigrations
  simp [hc, hl, he]

theorem RunMigrations_main (dir : Except Cause (List DirEntry)) (db db1 db2 : σ)
    (ms : List Migration) (applied : List Int)
    (hc : createMigrationsTable drv db = (none, db1))
    (hl : (loadMigrations dir).result = .ok ms) (hne : ms.length ≠ 0)
    (ha : getAppliedMigrations drv db1 = (.ok applied, db2)) :
    (RunMigrations drv dir db).err = (applyLoop drv applied ms db2).err ∧
      (RunMigrations drv dir db).calls =
        [.createTable true, .selectVersions true] ++ (applyLoop drv applied ms db2).calls ∧
      (RunMigrations drv dir db).db = (applyLoop drv applied ms db2).db := by
  unfold RunMigrations
  simp [hc, hl, hne, ha]

theorem applyLoop_all_applied (applied : List Int) (ms : List Migration) (db : σ)
    (h : ∀ m ∈ ms, m.Version ∈ applied) :
    (applyLoop drv applied ms db).err = none ∧ (applyLoop drv applied ms db).calls = [] ∧
      (applyLoop drv applied ms db).db = db := by
  induction ms with
  | nil => exact ⟨rfl, rfl, rfl⟩
  | cons m ms ih =>
    obtain ⟨a1, a2, a3⟩ :=
      applyLoop_skip drv applied m ms db (h m (List.mem_cons_self _ _))
    rw [a1, a2, a3]
    exact ih (fun x hx => h x (List.mem_cons_of_mem _ hx))

end Paths

/-! ## Invariants of the loop on the reference database -/

section PgLoop

variable {U : Type} (S : PgSem U)

theorem scanRows_ok (l : List Int) (acc : List Int) :
    scanRows (l.map .ok) acc = .ok (l.reverse ++ acc) := by
  induction l generalizing acc with
  | nil => rfl
  | cons v vs ih =>
    rw [List.map_cons, scanRows, ih]
    simp

theorem pg_getApplied (hscan : S.fullScan) (db : Pg U) (t : Table) (hdb : db.table = some t) :
    ∃ applied, getAppliedMigrations (pgDriver S) db = (.ok applied, db) ∧
      ∀ v, v ∈ applied ↔ v ∈ t.versions := by
  refine ⟨(sortSlice (fun a b => decide (a < b)) t.versions).reverse ++ [], ?_, ?_⟩
  · unfold getAppliedMigrations
    simp only [pgDriver, hdb]
    rw [hscan, scanRows_ok]
  · intro v
    rw [List.append_nil, List.mem_reverse]
    exact List.Perm.mem_iff (sortSlice_perm _ _)

theorem pg_create (db : Pg U) :
    ∃ db1 t, createMigrationsTable (pgDriver S) db = (none, db1) ∧ db1.table = some t ∧
      (∀ t0, db.table = some t0 → db1 = db) ∧
      ((∀ t0, db.table = some t0 → t0.pk = true) → t.pk = true) := by
  cases hdb : db.table with
  | none =>
    refine ⟨{ db with table := some { pk := true, rows := [] } }, { pk := true, rows := [] },
      ?_, rfl, ?_, fun _ => rfl⟩
    · simp [createMigrationsTable, pgDriver, hdb]
    · intro t0 h0
      exact Option.noConfusion h0
  | some t =>
    refine ⟨db, t, ?_, hdb, fun _ _ => rfl, fun h => h t rfl⟩
    simp [createMigrationsTable, pgDriver, hdb]

theorem versions_append (t : Table) (v : Int) (n : String) :
    Table.versions { t with rows := t.rows ++ [(v, n)] } = t.versions ++ [v] := by
  simp [Table.versions]

/-- After a successful loop every migration of the list is recorded: its
version was in the applied set or is now in the table, and no row was lost. -/
theorem pg_loop_success (applied : List Int) (ms : List Migration) (db : Pg U) (t : Table)
    (hk : ∀ m ∈ ms, S.keeps m.Content)
    (hdb : db.table = some t) (herr : (applyLoop (pgDriver S) applied ms db).err = none) :
    ∃ t1, (applyLoop (pgDriver S) applied ms db).db.table = some t1 ∧
      (∀ v ∈ t.versions, v ∈ t1.versions) ∧
      ∀ m ∈ ms, m.Version ∈ applied ∨ m.Version ∈ t1.versions := by
  induction ms generalizing db t with
  | nil =>
    exact ⟨t, hdb, fun _ h => h, fun m hm => absurd hm (List.not_mem_nil m)⟩
  | cons m ms ih =>
    have hk1 : ∀ x ∈ ms, S.keeps x.Content := fun x hx => hk x (List.mem_cons_of_mem _ hx)
    rcases pg_cons S applied m ms db t hdb (hk m (List.mem_cons_self _ _)) with
      ⟨hs, a1, _, a3⟩ | ⟨_, hne, _, _⟩ | ⟨_, _, db4, hdb4, a1, _, a3⟩
    · rw [a1] at herr
      obtain ⟨t1, h1, h2, h3⟩ := ih db t hk1 hdb herr
      refine ⟨t1, by rw [a3]; exact h1, h2, ?_⟩
      intro x hx
      cases List.mem_cons.1 hx with
      | inl h => rw [h]; exact Or.inl hs
      | inr h => exact h3 x h
    · exact absurd herr hne
    · rw [a1] at herr
      obtain ⟨t1, h1, h2, h3⟩ := ih db4 _ hk1 hdb4 herr
      have hsub : ∀ v ∈ t.versions ++ [m.Version], v ∈ t1.versions := by
        intro v hv
        apply h2
        rw [versions_append]
        exact hv
      refine ⟨t1, by rw [a3]; exact h1, fun v hv => hsub v (List.mem_append_left _ hv), ?_⟩
      intro x hx
      cases List.mem_cons.1 hx with
      | inl h =>
        rw [h]
        exact Or.inr (hsub _ (List.mem_append_right _ (List.mem_singleton.2 rfl)))
      | inr h => exact h3 x h

end PgLoop

/-! ## The scenario semantics -/

theorem demoSem_keeps (content : String) (h : content ≠ "DELETE FROM schema_migrations") :
    demoSem.keeps content := by
  intro t u t1 u1 hr
  simp only [demoSem, if_neg h] at hr
  split at hr
  · exact Except.noConfusion hr
  · split at hr
    · exact Except.noConfusion hr
    · simp only [Except.ok.injEq, Prod.mk.injEq] at hr
      exact hr.1.symm

theorem demoSem_fullScan : demoSem.fullScan := fun _ => rfl

/-- In a directory none of whose files is the statement that empties the
bookkeeping table, every loaded migration leaves the table alone. -/
theorem demoSem_keeps_dir (files : List DirEntry)
    (h : ∀ e ∈ files, e.body ≠ .ok "DELETE FROM schema_migrations") :
    ∀ ms, (loadMigrations (.ok files)).result = .ok ms → ∀ m ∈ ms, demoSem.keeps m.Content := by
  intro ms hl m hm
  obtain ⟨e, he, hacc⟩ := mem_loadMigrations files ms hl m hm
  obtain ⟨_, _, hbody, _⟩ := acceptedRecord_some e m hacc
  apply demoSem_keeps
  intro hc
  apply h e he
  rw [hbody, hc]

/-! ## Properties of the runner on the reference database -/

/-- C1 as stated fails.  First input: `002_reset` empties `schema_migrations`, so
the first run succeeds and leaves only row 2; the second run then begins a
transaction for `001_init`, executes its SQL again and returns an error.
Second input: no migration touches the table, but the version query of the
second run delivers only its first row, so `002_seed` is begun and executed
again. -/
theorem RunMigrations_second_run_reapplies :
    ((RunMigrations (pgDriver demoSem) (.ok resetDir) emptyPg).err = none ∧
      (RunMigrations (pgDriver demoSem) (.ok resetDir) emptyPg).db.table =
        some { pk := true, rows := [(2, "002_reset")] } ∧
      (RunMigrations (pgDriver demoSem) (.ok resetDir)
          (RunMigrations (pgDriver demoSem) (.ok resetDir) emptyPg).db).calls =
        [.createTable true, .selectVersions true, .begin true,
          .txExec "CREATE TABLE t(id int)" false, .rollback] ∧
      (RunMigrations (pgDriver demoSem) (.ok resetDir)
          (RunMigrations (pgDriver demoSem) (.ok resetDir) emptyPg).db).err =
        some { msg := "failed to execute migration 1 (001_init): pq: relation already exists",
               cause := "pq: relation already exists" }) ∧
    ((RunMigrations (pgDriver lossySem) (.ok scenarioA) emptyPg).err = none ∧
      (RunMigrations (pgDriver lossySem) (.ok scenarioA)
          (RunMigrations (pgDriver lossySem) (.ok scenarioA) emptyPg).db).calls =
        [.createTable true, .selectVersions true, .begin true,
          .txExec "INSERT INTO t VALUES (1)" true, .txInsert 2 "002_seed" false, .rollback] ∧
      (RunMigrations (pgDriver lossySem) (.ok scenarioA)
          (RunMigrations (pgDriver lossySem) (.ok scenarioA) emptyPg).db).err =
        some { msg := "failed to record migration 2: pq: duplicate key in schema_migrations",
               cause := "pq: duplicate key in schema_migrations" }) ∧
    ¬ ((RunMigrations (pgDriver demoSem) (.ok resetDir) emptyPg).err = none →
        (RunMigrations (pgDriver demoSem) (.ok resetDir)
          (RunMigrations (pgDriver demoSem) (.ok resetDir) emptyPg).db).err = none) := by
  refine ⟨⟨by decide, by decide, by decide, by decide⟩, ⟨by decide, by decide, by decide⟩, ?_⟩
  intro h
  exact absurd (h (by decide)) (by decide)

/-- C1, amended: provided no migration's SQL changes `schema_migrations` and the
version query delivers every row, if a first `RunMigrations` returns success,
a second one on the same directory and the database the first one left
returns success, makes no call but the table creation and the version query
(no transaction is begun, no migration SQL is executed, no row is inserted),
commits nothing, and leaves the database, hence the rows of
`schema_migrations`, as it was. -/
theorem RunMigrations_idempotent {U : Type} (S : PgSem U)
    (dir : Except Cause (List DirEntry)) (db : Pg U)
    (hk : ∀ ms, (loadMigrations dir).result = .ok ms → ∀ m ∈ ms, S.keeps m.Content)
    (hscan : S.fullScan)
    (h : (RunMigrations (pgDriver S) dir db).err = none) :
    (RunMigrations (pgDriver S) dir (RunMigrations (pgDriver S) dir db).db).err = none ∧
      (∀ c ∈ (RunMigrations (pgDriver S) dir (RunMigrations (pgDriver S) dir db).db).calls,
        c = .createTable true ∨ c = .selectVersions true) ∧
      committedVersions
        (RunMigrations (pgDriver S) dir (RunMigrations (pgDriver S) dir db).db).calls = [] ∧
      (RunMigrations (pgDriver S) dir (RunMigrations (pgDriver S) dir db).db).db =
        (RunMigrations (pgDriver S) dir db).db := by
  obtain ⟨db1, t1, hc, hdb1, _, _⟩ := pg_create S db
  cases hl : (loadMigrations dir).result with
  | error e =>
    rw [(RunMigrations_loadFails (pgDriver S) dir db db1 e hc hl).1] at h
    exact Option.noConfusion h
  | ok ms =>
    by_cases he : ms.length = 0
    · obtain ⟨_, _, a3⟩ := RunMigrations_empty (pgDriver S) dir db db1 ms hc hl he
      rw [a3]
      obtain ⟨db1', _, hc', _, hsame, _⟩ := pg_create S db1
      rw [hsame t1 hdb1] at hc'
      obtain ⟨b1, b2, b3⟩ := RunMigrations_empty (pgDriver S) dir db1 db1 ms hc' hl he
      rw [b1, b2, b3]
      exact ⟨rfl, fun c hc => Or.inl (List.mem_singleton.1 hc), rfl, rfl⟩
    · obtain ⟨applied, ha, happ⟩ := pg_getApplied S hscan db1 t1 hdb1
      obtain ⟨a1, _, a3⟩ := RunMigrations_main (pgDriver S) dir db db1 db1 ms applied hc hl he ha
      rw [a1] at h
      rw [a3]
      obtain ⟨t2, hdb2, hsub, hall⟩ := pg_loop_success S applied ms db1 t1 (hk ms hl) hdb1 h
      obtain ⟨dbc, _, hc2, _, hsame, _⟩ := pg_create S (applyLoop (pgDriver S) applied ms db1).db
      rw [hsame t2 hdb2] at hc2
      obtain ⟨applied2, ha2, happ2⟩ := pg_getApplied S hscan _ t2 hdb2
      obtain ⟨b1, b2, b3⟩ := RunMigrations_main (pgDriver S) dir _ _ _ ms applied2 hc2 hl he ha2
      have hskip : ∀ m ∈ ms, m.Version ∈ applied2 := by
        intro m hm
        rw [happ2]
        rcases hall m hm with h1 | h1
        · exact hsub _ ((happ _).1 h1)
        · exact h1
      obtain ⟨c1, c2, c3⟩ := applyLoop_all_applied (pgDriver S) applied2 ms _ hskip
      rw [b1, b2, b3, c1, c2, c3]
      refine ⟨rfl, ?_, rfl, rfl⟩
      intro c hc
      simp only [List.append_nil, List.mem_cons, List.mem_singleton, List.not_mem_nil,
        or_false] at hc
      exact hc

/-- Witness for the amended C1 (Scenarios A and B): two migrations on an empty
database, run twice. -/
theorem RunMigrations_idempotent_witness :
    (RunMigrations (pgDriver demoSem) (.ok scenarioA) emptyPg).db.table =
        some { pk := true, rows := [(1, "001_init"), (2, "002_seed")] } ∧
      ((RunMigrations (pgDriver demoSem) (.ok scenarioA)
          (RunMigrations (pgDriver demoSem) (.ok scenarioA) emptyPg).db).err = none ∧
      (∀ c ∈ (RunMigrations (pgDriver demoSem) (.ok scenarioA)
          (RunMigrations (pgDriver demoSem) (.ok scenarioA) emptyPg).db).calls,
        c = .createTable true ∨ c = .selectVersions true) ∧
      committedVersions (RunMigrations (pgDriver demoSem) (.ok scenarioA)
          (RunMigrations (pgDriver demoSem) (.ok scenarioA) emptyPg).db).calls = [] ∧
      (RunMigrations (pgDriver demoSem) (.ok scenarioA)
          (RunMigrations (pgDriver demoSem) (.ok scenarioA) emptyPg).db).db =
        (RunMigrations (pgDriver demoSem) (.ok scenarioA) emptyPg).db) :=
  ⟨by decide,
    RunMigrations_idempotent demoSem (.ok scenarioA) emptyPg
      (demoSem_keeps_dir scenarioA (by decide)) demoSem_fullScan (by decide)⟩

/-- Without the primary key the hypothesis of C3 cannot be dropped: both files
of version 2 are committed. -/
theorem RunMigrations_without_primary_key :
    committedVersions (RunMigrations (pgDriver demoSem) (.ok sharedVersionDir)
      { table := some { pk := false, rows := [(1, "001_init")] }, user := [],
        tx := none }).calls = [2, 2, 3] := by
  decide

/-- C8 fails on the code: the error of a failed execution formats the
migration's name (`002_bad`), but the error of a failed bookkeeping insert
(`001_b`) and the error of a failed commit (`001_defer`) format only the
version and the cause, so the name is not carried. -/
theorem RunMigrations_record_error_without_name :
    ((RunMigrations (pgDriver demoSem) (.ok scenarioC) emptyPg).err =
        some { msg := "failed to execute migration 2 (002_bad): pq: syntax error",
               cause := "pq: syntax error" } ∧
      Error.carries
        { msg := "failed to execute migration 2 (002_bad): pq: syntax error",
          cause := "pq: syntax error" } "002_bad") ∧
    ((RunMigrations (pgDriver demoSem) (.ok sharedOneDir) emptyPg).calls =
        [.createTable true, .selectVersions true,
          .begin true, .txExec "SELECT 1" true, .txInsert 1 "001_a" true, .commit true,
          .begin true, .txExec "SELECT 2" true, .txInsert 1 "001_b" false, .rollback] ∧
      (RunMigrations (pgDriver demoSem) (.ok sharedOneDir) emptyPg).err =
        some { msg := "failed to record migration 1: pq: duplicate key in schema_migrations",
               cause := "pq: duplicate key in schema_migrations" } ∧
      ¬ (Error.carries
          { msg := "failed to record migration 1: pq: duplicate key in schema_migrations",
            cause := "pq: duplicate key in schema_migrations" } "001_b")) ∧
    ((RunMigrations (pgDriver demoSem) (.ok deferDir) emptyPg).calls =
        [.createTable true, .selectVersions true,
          .begin true, .txExec "DEFER INSERT INTO c VALUES (0)" true,
          .txInsert 1 "001_defer" true, .commit false] ∧
      (RunMigrations (pgDriver demoSem) (.ok deferDir) emptyPg).err =
        some { msg := "failed to commit migration 1: pq: deferred constraint violated",
               cause := "pq: deferred constraint violated" } ∧
      ¬ (Error.carries
          { msg := "failed to commit migration 1: pq: deferred constraint violated",
            cause := "pq: deferred constraint violated" } "001_defer")) := by
  refine ⟨⟨by decide, ?_⟩, ⟨by decide, by decide, ?_⟩, ⟨by decide, by decide, ?_⟩⟩
  · unfold Error.carries
    decide
  · unfold Error.carries
    decide
  · unfold Error.carries
    decide

end Psql
